import Mathlib

/-!
Verification development for the amStationInfo station-data pipeline.

The development shallowly embeds the two format adapters
(`parseStationData` for the fixed-width US registry dump,
`parseCanadianStationData` for the 7-column Canadian CSV export),
the merge performed by the application shell, and the haversine
`calculateDistance` utility.

Modelling conventions:
* JavaScript numbers are modelled as `JSNum`: either `nan` or an exact
  rational.  All arithmetic performed by the adapters is sums, constant
  divisions and comparisons, so exact rationals are a faithful model of
  the values the claims speak about; `nan` propagation mirrors JS `NaN`.
* `parseInt` / `parseFloat` are modelled on decimal (and, for `parseInt`,
  hexadecimal `0x`) literals with sign and, for `parseFloat`, fraction and
  exponent parts, returning `none` where JS returns `NaN`.  The JS special
  form `parseFloat("Infinity")` has no rational value and is mapped to
  `none`; no adapter behaviour relevant to the claims depends on it.
* JS string primitives (`substring` with clamping and argument swapping,
  `indexOf` with a clamped start position, `trim`, `split` on a regexp of
  whitespace runs, `split` on a single character, `includes`) are defined
  below with their ECMAScript semantics on the whitespace characters that
  occur in the data (space, tab, CR, LF, FF, VT).
-/

/-- Whitespace test used by `trim` and `split(/\s+/)`. -/
def wsChar (c : Char) : Bool :=
  c = ' ' || c = '\t' || c = '\n' || c = '\r' || c = '\x0b' || c = '\x0c'

/-- JS `String.prototype.trim`. -/
def jsTrim (s : String) : String :=
  ⟨((s.data.dropWhile wsChar).reverse.dropWhile wsChar).reverse⟩

/-- JS `String.prototype.substring(a, b)`: clamps both indices into
`[0, length]` and swaps them when `a > b`. -/
def jsSubstring (s : String) (a b : Int) : String :=
  let n : Int := s.length
  let a' := min (max a 0) n
  let b' := min (max b 0) n
  ⟨(s.data.take (max a' b').toNat).drop (min a' b').toNat⟩

/-- `pat` occurs at the head of `l`. -/
def headMatch : List Char → List Char → Bool
  | [], _ => true
  | _ :: _, [] => false
  | p :: ps, c :: cs => p = c && headMatch ps cs

/-- Scan for the first occurrence of `pat`, returning its offset or `-1`. -/
def scanFor (pat : List Char) : List Char → Nat → Int
  | l, i =>
    if headMatch pat l then (i : Int)
    else match l with
      | [] => -1
      | _ :: cs => scanFor pat cs (i + 1)

/-- JS `String.prototype.indexOf(pat, start)`: the start position is clamped
into `[0, length]`; the result is the index of the first occurrence at or
after it, or `-1`. -/
def jsIndexOfFrom (s pat : String) (start : Int) : Int :=
  let st := (min (max start 0) (s.length : Int)).toNat
  let r := scanFor pat.data (s.data.drop st) 0
  if r < 0 then -1 else (st : Int) + r

/-- JS `String.prototype.includes(pat)`. -/
def jsIncludes (s pat : String) : Bool :=
  jsIndexOfFrom s pat 0 ≠ -1

/-- Worker for `split(/\s+/)`: `inWs` records whether the scanner is inside a
whitespace run (a segment boundary has already been emitted). -/
def splitWsGo : List Char → List Char → Bool → List (List Char)
  | [], _, true => [[]]
  | [], cur, false => [cur.reverse]
  | c :: cs, _, true =>
    if wsChar c then splitWsGo cs [] true else splitWsGo cs [c] false
  | c :: cs, cur, false =>
    if wsChar c then cur.reverse :: splitWsGo cs [] true
    else splitWsGo cs (c :: cur) false

/-- JS `String.prototype.split(/\s+/)`: splits on maximal whitespace runs,
keeping the empty segments JS produces at a leading or trailing run, and
mapping `""` to `[""]`. -/
def jsSplitWs (s : String) : List String :=
  (splitWsGo s.data [] false).map (⟨·⟩)

/-- Worker for `split(sep)` with a single-character separator. -/
def splitCharGo (sep : Char) : List Char → List Char → List (List Char)
  | [], cur => [cur.reverse]
  | c :: cs, cur =>
    if c = sep then cur.reverse :: splitCharGo sep cs []
    else splitCharGo sep cs (c :: cur)

/-- JS `String.prototype.split(sep)` for a one-character separator. -/
def jsSplitChar (s : String) (sep : Char) : List String :=
  (splitCharGo sep s.data []).map (⟨·⟩)

/-- `replace(/"/g, '')`: drop every double-quote character. -/
def jsStripQuotes (s : String) : String :=
  ⟨s.data.filter (· ≠ '"')⟩

/-- Decimal digit test (JS `\d`). -/
def dgt (c : Char) : Bool := '0' ≤ c && c ≤ '9'

def digitVal (c : Char) : Nat := c.toNat - '0'.toNat

def hexDigit (c : Char) : Bool :=
  dgt c || ('a' ≤ c && c ≤ 'f') || ('A' ≤ c && c ≤ 'F')

def hexVal (c : Char) : Nat :=
  if dgt c then digitVal c
  else if 'a' ≤ c && c ≤ 'f' then c.toNat - 'a'.toNat + 10
  else c.toNat - 'A'.toNat + 10

/-- Longest digit run at the head, as accumulated value and count. -/
def takeDigits (base : Nat) (isD : Char → Bool) (val : Char → Nat) :
    List Char → Nat → Nat → Nat × Nat × List Char
  | [], acc, n => (acc, n, [])
  | c :: cs, acc, n =>
    if isD c then takeDigits base isD val cs (acc * base + val c) (n + 1)
    else (acc, n, c :: cs)

/-- Sign prefix: returns the sign (as `1` or `-1`) and the rest. -/
def takeSign : List Char → Int × List Char
  | '-' :: cs => (-1, cs)
  | '+' :: cs => (1, cs)
  | cs => (1, cs)

/-- JS `parseInt(s)` (radix auto-detection of `0x`/`0X` hexadecimal,
otherwise decimal): leading whitespace skipped, optional sign, longest
valid digit run, trailing garbage ignored; `none` models `NaN`. -/
def parseIntJS (s : String) : Option Int :=
  let l := s.data.dropWhile wsChar
  let (sg, l) := takeSign l
  match l with
  | '0' :: x :: rest =>
    if x = 'x' ∨ x = 'X' then
      let (v, n, _) := takeDigits 16 hexDigit hexVal rest 0 0
      if n = 0 then none else some (sg * (v : Int))
    else
      let (v, n, _) := takeDigits 10 dgt digitVal l 0 0
      if n = 0 then none else some (sg * (v : Int))
  | _ =>
    let (v, n, _) := takeDigits 10 dgt digitVal l 0 0
    if n = 0 then none else some (sg * (v : Int))

/-- `10 ^ n` over the rationals, by plain recursion. -/
def pw10 : Nat → ℚ
  | 0 => 1
  | n + 1 => 10 * pw10 n

/-- JS `parseFloat(s)`: leading whitespace skipped, optional sign, decimal
digits with optional fraction and optional exponent part, trailing garbage
ignored; `none` models `NaN` (and the unused `Infinity` form). -/
def parseFloatJS (s : String) : Option ℚ :=
  let l := s.data.dropWhile wsChar
  let (sg, l) := takeSign l
  let (ip, ni, l) := takeDigits 10 dgt digitVal l 0 0
  let (fp, nf, l) :=
    match l with
    | '.' :: rest => takeDigits 10 dgt digitVal rest 0 0
    | _ => (0, 0, l)
  if ni = 0 ∧ nf = 0 then none
  else
    let mant : ℚ := (ip : ℚ) + (fp : ℚ) / pw10 nf
    let ex : Int :=
      match l with
      | e :: rest =>
        if e = 'e' ∨ e = 'E' then
          let (es, rest) := takeSign rest
          let (ev, ne, _) := takeDigits 10 dgt digitVal rest 0 0
          if ne = 0 then 0 else es * (ev : Int)
        else 0
      | _ => 0
    let scale : ℚ := if 0 ≤ ex then pw10 ex.toNat else 1 / pw10 (-ex).toNat
    some ((sg : ℚ) * (mant * scale))

/-- A JavaScript number as far as the adapters use them: `NaN` or an exact
rational. -/
inductive JSNum where
  | nan : JSNum
  | num (q : ℚ) : JSNum
deriving DecidableEq

/-- JS `+` (`NaN` propagates). -/
def JSNum.add : JSNum → JSNum → JSNum
  | num a, num b => num (a + b)
  | _, _ => nan

/-- JS unary minus. -/
def JSNum.neg : JSNum → JSNum
  | num a => num (-a)
  | nan => nan

/-- JS `*` (`NaN` propagates). -/
def JSNum.mul : JSNum → JSNum → JSNum
  | num a, num b => num (a * b)
  | _, _ => nan

/-- JS `/` (`NaN` propagates).  Every division the adapters perform has a
nonzero constant divisor; division by zero (JS: signed infinity) is mapped
to `nan` and never reached. -/
def JSNum.div : JSNum → JSNum → JSNum
  | num a, num b => if b = 0 then nan else num (a / b)
  | _, _ => nan

/-- JS `>` : false whenever either side is `NaN`. -/
def JSNum.gt : JSNum → JSNum → Bool
  | num a, num b => decide (b < a)
  | _, _ => false

/-- JS `<=` : false whenever either side is `NaN`. -/
def JSNum.le : JSNum → JSNum → Bool
  | num a, num b => decide (a ≤ b)
  | _, _ => false

/-- JS `isNaN`. -/
def JSNum.isNaN : JSNum → Bool
  | nan => true
  | num _ => false

/-- A parsed integer (`parseInt` result) as a JS number. -/
def jOfInt : Option Int → JSNum
  | some i => .num (i : ℚ)
  | none => .nan

/-- A parsed float (`parseFloat` result) as a JS number. -/
def jOfQ : Option ℚ → JSNum
  | some q => .num q
  | none => .nan

/-- JS `Math.round` (half-up, i.e. `⌊x + 1/2⌋`). -/
def jsRound : JSNum → JSNum
  | .num q => .num ((⌊q + 1 / 2⌋ : Int) : ℚ)
  | .nan => .nan

/-- The string interpolation `${x}` of a JS number that is either `NaN` or
an integer (which is all the adapters interpolate: `Math.round` results). -/
def jsNumTemplate : JSNum → String
  | .nan => "NaN"
  | .num q => toString ⌊q⌋

/-- The canonical station record produced by both adapters. -/
structure Station where
  callSign : String
  frequency : String
  power : JSNum
  city : String
  state : String
  lat : JSNum
  lon : JSNum
  operator : String
  id : String
deriving DecidableEq

/-! ## Fixed-width US adapter (`parseStationData`, src/utils/stationParser) -/

/-- `callSign`: fixed window `[1,14)`, trimmed. -/
def usCallSign (line : String) : String := jsTrim (jsSubstring line 1 14)

/-- `frequency`: fixed window `[14,23)`, trimmed (raw column text). -/
def usFrequency (line : String) : String := jsTrim (jsSubstring line 14 23)

/-- `usIndex = line.indexOf(' US ')`. -/
def usUsIndex (line : String) : Int := jsIndexOfFrom line " US " 0

/-- `state = line.substring(usIndex - 3, usIndex - 1).trim()`. -/
def usState (line : String) : String :=
  jsTrim (jsSubstring line (usUsIndex line - 3) (usUsIndex line - 1))

/-- `city = line.substring(usIndex - 30, usIndex - 3).trim()`. -/
def usCity (line : String) : String :=
  jsTrim (jsSubstring line (usUsIndex line - 30) (usUsIndex line - 3))

/-- `nIndex = line.indexOf(' N  ', usIndex)`. -/
def usNIndex (line : String) : Int := jsIndexOfFrom line " N  " (usUsIndex line)

/-- `wIndex = line.indexOf(' W  ', nIndex)`. -/
def usWIndex (line : String) : Int := jsIndexOfFrom line " W  " (usNIndex line)

/-- Latitude triplet tokens: `line.substring(nIndex+4, wIndex).trim().split(/\s+/)`. -/
def usLatParts (line : String) : List String :=
  jsSplitWs (jsTrim (jsSubstring line (usNIndex line + 4) (usWIndex line)))

/-- Longitude triplet tokens:
`line.substring(wIndex+4, wIndex+20).trim().split(/\s+/)`. -/
def usLonParts (line : String) : List String :=
  jsSplitWs (jsTrim (jsSubstring line (usWIndex line + 4) (usWIndex line + 20)))

def usLatDeg (line : String) : Option Int := parseIntJS ((usLatParts line).getD 0 "")
def usLatMin (line : String) : Option Int := parseIntJS ((usLatParts line).getD 1 "")
def usLatSec (line : String) : Option ℚ := parseFloatJS ((usLatParts line).getD 2 "")
def usLonDeg (line : String) : Option Int := parseIntJS ((usLonParts line).getD 0 "")
def usLonMin (line : String) : Option Int := parseIntJS ((usLonParts line).getD 1 "")
def usLonSec (line : String) : Option ℚ := parseFloatJS ((usLonParts line).getD 2 "")

/-- First index in `s` where a run of 2+ whitespace characters or 2+ digits
begins (`s.search(/\s{2,}|\d{2,}/)`), or `-1`. -/
def searchStopGo : List Char → Nat → Int
  | [], _ => -1
  | [_], _ => -1
  | a :: b :: cs, i =>
    if (wsChar a && wsChar b) || (dgt a && dgt b) then (i : Int)
    else searchStopGo (b :: cs) (i + 1)

def usSearchStop (s : String) : Int := searchStopGo s.data 0

/-- The trimmed 80-character operator window after the longitude field. -/
def usOperatorStr (line : String) : String :=
  jsTrim (jsSubstring line (usWIndex line + 20) (usWIndex line + 20 + 80))

/-- `operator`: text up to the first 2+-whitespace or 2+-digit run, falling
back to the first 60 characters when that prefix is empty (`"" ||` in JS). -/
def usOperator (line : String) : String :=
  let ostr := usOperatorStr line
  let first := jsTrim (jsSubstring ostr 0 (usSearchStop ostr))
  if first = "" then jsTrim (jsSubstring ostr 0 60) else first

/-- `kwIndex = line.indexOf('kW', usIndex)`. -/
def usKwIndex (line : String) : Int := jsIndexOfFrom line "kW" (usUsIndex line)

/-- The whitespace-delimited token immediately before `kW` inside the
20-character lookback window (`.trim().split(/\s+/).pop()`). -/
def usPowerTok (line : String) : String :=
  ((jsSplitWs (jsTrim (jsSubstring line (usKwIndex line - 20) (usKwIndex line)))).getLast?).getD ""

/-- The power value a line yields: `parseFloat` of the token when `kW` was
found (`kwIndex > 0`), else `0`; an unparsable token (`NaN`) coerces to `0`
at record construction (`isNaN(power) ? 0 : power`). -/
def usPowerVal (line : String) : ℚ :=
  if 0 < usKwIndex line then
    match parseFloatJS (usPowerTok line) with
    | some q => q
    | none => 0
  else 0

/-- Per-line extraction of `parseStationData` (everything except the
`seen`-set deduplication, which lives in the driver): structural checks in
source order, then the range validation, then record construction. -/
def parseLine (line : String) : Option Station :=
  if jsTrim line = "" ∨ line.length < 250 then none
  else if ¬ jsIncludes line "Daytime" then none
  else if usUsIndex line = -1 then none
  else if usNIndex line = -1 ∨ usWIndex line = -1 then none
  else if (usLatParts line).length < 3 then none
  else if (usLonParts line).length < 3 then none
  else
    match usLatDeg line, usLonDeg line with
    | some a, some b =>
      if a < 0 ∨ 90 < a ∨ b < 0 ∨ 180 < b then none
      else
        some
          { callSign := usCallSign line
            frequency := usFrequency line
            power := .num (usPowerVal line)
            city := usCity line
            state := usState line
            lat := .add (.add (.num (a : ℚ)) (.div (jOfInt (usLatMin line)) (.num 60)))
                        (.div (jOfQ (usLatSec line)) (.num 3600))
            lon := .neg (.add (.add (.num (b : ℚ)) (.div (jOfInt (usLonMin line)) (.num 60)))
                              (.div (jOfQ (usLonSec line)) (.num 3600)))
            operator := usOperator line
            id := usCallSign line ++ "-" ++ usFrequency line }
    | _, _ => none

/-- The driver loop of `parseStationData`: per line, the length/blank check,
the `Daytime` check, then the `seen`-set check on the extracted call sign
(the call sign is recorded in `seen` even when the rest of the line later
fails to parse, exactly as in the source). -/
def usGo : List String → List String → List Station
  | [], _ => []
  | l :: ls, seen =>
    if jsTrim l = "" ∨ l.length < 250 then usGo ls seen
    else if ¬ jsIncludes l "Daytime" then usGo ls seen
    else if usCallSign l ∈ seen then usGo ls seen
    else
      match parseLine l with
      | some st => st :: usGo ls (usCallSign l :: seen)
      | none => usGo ls (usCallSign l :: seen)

/-- `parseStationData`: split the trimmed input on newlines and run the
line loop with an empty `seen` set. -/
def parseStationData (fileContent : String) : List Station :=
  usGo (jsSplitChar (jsTrim fileContent) '\n') []

/-! ## Delimited Canadian adapter (`parseCanadianStationData`,
src/utils/canadianParser, current 7-column schema) -/

/-- The columns of a CSV row: split on `','`, strip quotes, trim
(`line.split(',').map(col => col.replace(/"/g, '').trim())`). -/
def caColumns (line : String) : List String :=
  (jsSplitChar line ',').map (fun c => jsTrim (jsStripQuotes c))

/-- The raw call-sign column (index 3) of a row. -/
def caRawCallSign (line : String) : String := (caColumns line).getD 3 ""

/-- The base call sign: `callSign.split('-')[0]`. -/
def caBase (callSign : String) : String := (jsSplitChar callSign '-').getD 0 ""

/-- `frequency = `${Math.round(frequencyMHz * 1000)}   kHz`` with
`frequencyMHz = parseFloat(columns[1])`. -/
def caFreqStr (line : String) : String :=
  jsNumTemplate (jsRound (JSNum.mul (jOfQ (parseFloatJS ((caColumns line).getD 1 ""))) (.num 1000)))
    ++ "   kHz"

/-- `power = parseFloat(columns[2]) / 1000` (Watts to kilowatts). -/
def caPowerVal (line : String) : JSNum :=
  JSNum.div (jOfQ (parseFloatJS ((caColumns line).getD 2 ""))) (.num 1000)

/-- `licensee = columns[6] || 'Canadian Broadcaster'`. -/
def caOperator (line : String) : String :=
  if (caColumns line).getD 6 "" = "" then "Canadian Broadcaster"
  else (caColumns line).getD 6 ""

def caLat (line : String) : Option ℚ := parseFloatJS ((caColumns line).getD 4 "")
def caLon (line : String) : Option ℚ := parseFloatJS ((caColumns line).getD 5 "")

/-- Per-row extraction of `parseCanadianStationData`: secondary-header and
column-count checks, field parses, unit conversions, validation, and the
candidate record (the power-priority merge lives in the driver). -/
def canadianRow (line : String) : Option Station :=
  if jsTrim line = "" then none
  else if (caColumns line).getD 3 "" = "Call sign" then none
  else if (caColumns line).length < 7 then none
  else
    match caLat line, caLon line with
    | some la, some lo =>
      if (caPowerVal line).isNaN ∨ caRawCallSign line = "" ∨ (la = 0 ∧ lo = 0) then none
      else
        some
          { callSign := caBase (caRawCallSign line)
            frequency := caFreqStr line
            power := caPowerVal line
            city := "Canada"
            state := "CA"
            lat := .num la
            lon := .num lo
            operator := caOperator line
            id := caBase (caRawCallSign line) ++ "-" ++ caFreqStr line }
    | _, _ => none

/-- Insertion-ordered JS `Map.set`: replace in place when the key exists,
append otherwise. -/
def mapSet (m : List (String × Station)) (k : String) (v : Station) :
    List (String × Station) :=
  match m with
  | [] => [(k, v)]
  | (k', v') :: rest =>
    if k' = k then (k, v) :: rest else (k', v') :: mapSet rest k v

/-- JS `Map.get`. -/
def mapGet (m : List (String × Station)) (k : String) : Option Station :=
  (m.find? (fun p => p.1 = k)).map (·.2)

/-- One driver step: `if (!existing || power > existing.power)` store the
candidate under its `id`. -/
def caStep (m : List (String × Station)) (line : String) :
    List (String × Station) :=
  match canadianRow line with
  | none => m
  | some st =>
    match mapGet m st.id with
    | none => mapSet m st.id st
    | some existing =>
      if st.power.gt existing.power then mapSet m st.id st else m

/-- The data rows of the CSV: trimmed content split on newlines, row 0
(the header) skipped. -/
def caDataLines (csvContent : String) : List String :=
  (jsSplitChar (jsTrim csvContent) '\n').drop 1

/-- The rows the Canadian adapter accepts, in input order (each as its
candidate record). -/
def caAccepted (csvContent : String) : List Station :=
  (caDataLines csvContent).filterMap canadianRow

/-- `parseCanadianStationData`: fold the rows through the power-priority
map and return `Array.from(stationMap.values())` (insertion order). -/
def parseCanadianStationData (csvContent : String) : List Station :=
  ((caDataLines csvContent).foldl caStep []).map (·.2)

/-- The merge performed by the application shell (`App.loadData`):
US records first, then Canadian, plain concatenation. -/
def loadAllStations (usText caText : String) : List Station :=
  parseStationData usText ++ parseCanadianStationData caText

/-! ## Geodesy utility (`calculateDistance`) -/

noncomputable def toRad (degrees : ℝ) : ℝ := degrees * (Real.pi / 180)

/-- JS `Math.atan2`. Only the `0 < x` branch is exercised by
`calculateDistance` (its second argument is a square root of a positive
number there); the other branches follow the ECMAScript definition. -/
noncomputable def atan2 (y x : ℝ) : ℝ :=
  if 0 < x then Real.arctan (y / x)
  else if x < 0 ∧ 0 ≤ y then Real.arctan (y / x) + Real.pi
  else if x < 0 ∧ y < 0 then Real.arctan (y / x) - Real.pi
  else if x = 0 ∧ 0 < y then Real.pi / 2
  else if x = 0 ∧ y < 0 then -(Real.pi / 2)
  else 0

/-- Haversine great-circle distance in miles, Earth radius `3959`. -/
noncomputable def calculateDistance (lat1 lon1 lat2 lon2 : ℝ) : ℝ :=
  let R : ℝ := 3959
  let dLat := toRad (lat2 - lat1)
  let dLon := toRad (lon2 - lon1)
  let a :=
    Real.sin (dLat / 2) * Real.sin (dLat / 2) +
      Real.cos (toRad lat1) * Real.cos (toRad lat2) *
        Real.sin (dLon / 2) * Real.sin (dLon / 2)
  let c := 2 * atan2 (Real.sqrt a) (Real.sqrt (1 - a))
  R * c

/-! ## Derived notions used by the verification -/

/-- A line that survives the US driver's pre-checks (nonblank, length ≥ 250,
contains `Daytime`) and so reaches the `seen`-set logic. -/
def usEligible (l : String) : Bool :=
  !(decide (jsTrim l = "" ∨ l.length < 250)) && jsIncludes l "Daytime"

/-- One step of the per-key power-priority choice: keep the stored record
unless the incoming one has strictly greater power. -/
def selPick : Option Station → Station → Option Station
  | none, st => some st
  | some ex, st => if st.power.gt ex.power then some st else some ex

/-- The record the power-priority merge retains out of a list of candidate
records (all mapping to one key), `none` for the empty list. -/
def selBest (l : List Station) : Option Station := l.foldl selPick none

/-- Well-formedness of the station map: keys are distinct and every stored
record's `id` is its key.  `parseCanadianStationData`'s map satisfies it. -/
def mapWF (m : List (String × Station)) : Prop :=
  (m.map (·.1)).Nodup ∧ ∀ p ∈ m, p.2.id = p.1

/-! ## Concrete inputs used by witnesses and counterexamples -/

/-- A well-formed US registry line (station WABC). -/
def usLineGood : String :=
  "XWABC         770      Daytime  NEW YORK                   NY  US  N  40 45 0.0 W  073 58 0.0      ABC Radio  5.0 kW                                                                                                                                     ."

/-- US line with call sign `AB-C` and frequency column `D`. -/
def usLineIdA : String :=
  "XAB-C         D        Daytime  SPRINGFIELD                IL  US  N  40 30 0.0 W  090 15 0.0      Acme Bcast  1.0 kW                                                                                                                                    ."

/-- US line with call sign `AB` and frequency column `C-D`. -/
def usLineIdB : String :=
  "XAB           C-D      Daytime  SHELBYVILLE                IL  US  N  41 30 0.0 W  091 15 0.0      Bravo Bcast  2.0 kW                                                                                                                                   ."

/-- US line with call sign `WAAA`, 250 chars and `Daytime` but no ` US ` anchor. -/
def usLineSeenBad : String :=
  "XWAAA         550      Daytime  BADTOWN                    TX  XX  N  30 10 0.0 W  095 20 0.0      First Media  3.0 kW                                                                                                                                   ."

/-- A well-formed US line with the same call sign `WAAA`. -/
def usLineSeenGood : String :=
  "XWAAA         550      Daytime  GOODTOWN                   TX  US  N  30 20 0.0 W  095 30 0.0      Second Media  4.0 kW                                                                                                                                  ."

/-- US line whose latitude degree component is `91`. -/
def usLineLatBad : String :=
  "XKLAT         600      Daytime  AUSTIN                     TX  US  N  91 00 0.0 W  097 40 0.0      Lat Media  2.0 kW                                                                                                                                     ."

/-- US line with `latDeg=89` and `latMin=120` (decimal latitude 91). -/
def usLineLatOver : String :=
  "XKMIN         610      Daytime  DALLAS                     TX  US  N  89 120 0.0 W  096 50 0.0      Min Media  2.5 kW                                                                                                                                    ."

/-- US line whose latitude triplet is `12 ab cd` (minute/second tokens non-numeric). -/
def usLineTok : String :=
  "XKTOK         620      Daytime  HOUSTON                    TX  US  N  12 ab cd W  095 10 0.0      Tok Media  1.5 kW                                                                                                                                      ."

/-- US line whose power token is `-5`. -/
def usLineNegPow : String :=
  "XKNEG         630      Daytime  ELPASO                     TX  US  N  31 45 0.0 W  106 29 0.0      Neg Media  -5 kW                                                                                                                                      ."

/-- US line with `lonDeg=0` and `lonMin=-60` (decimal longitude +1). -/
def usLinePosLon : String :=
  "XKLON         640      Daytime  LAREDO                     TX  US  N  27 30 0.0 W  0 -60 0.0       Lon Media  1.0 kW                                                                                                                                     ."

/-- A Canadian CSV with three rows collapsing to one key (powers 50, 80, 80)
and an auxiliary-transmitter suffix, plus an unrelated row. -/
def caCsvBest : String :=
  "Channel Type,Frequency,Power,Call sign,Lat,Lon,Licensee\nAM,0.54,50000,CFAA,45.5,-73.5,Acme\nAM,0.54,80000,CFAA-AX1,45.6,-73.6,Bravo\nAM,0.54,80000,CFAA,45.7,-73.7,Delta\nAM,0.6,20000,CJBB,46.5,-80.0,Echo"

/-- US line whose latitude triplet has only two tokens (`40 45`). -/
def usLineTwoTok : String :=
  "XKTWO         650      Daytime  ODESSA                     TX  US  N  40 45 W  095 40 0.0      Two Media  1.0 kW                                                                                                                                         ."

/-- US line whose power token is the unparsable `abc`. -/
def usLineBadPow : String :=
  "XKPOW         660      Daytime  ABILENE                    TX  US  N  32 26 0.0 W  099 44 0.0      Pow Media  abc kW                                                                                                                                     ."

/-- The record `parseStationData` produces from `usLineGood`. -/
def stWABC : Station :=
  { callSign := "WABC", frequency := "770", power := .num 5, city := "NEW YORK",
    state := "NY", lat := .num (163 / 4), lon := .num (-2219 / 30),
    operator := "ABC Radio", id := "WABC-770" }

/-- The record `parseStationData` produces from `usLineBadPow`. -/
def stKPOW : Station :=
  { callSign := "KPOW", frequency := "660", power := .num 0, city := "ABILENE",
    state := "TX", lat := .num (973 / 30), lon := .num (-1496 / 15),
    operator := "Pow Media", id := "KPOW-660" }

/-- The winning `CFAA` record of `caCsvBest` (the 80 kW `CFAA-AX1` row). -/
def stCFAA : Station :=
  { callSign := "CFAA", frequency := "540   kHz", power := .num 80, city := "Canada",
    state := "CA", lat := .num (228 / 5), lon := .num (-368 / 5),
    operator := "Bravo", id := "CFAA-540   kHz" }

/-- The `CJBB` record of `caCsvBest`. -/
def stCJBB : Station :=
  { callSign := "CJBB", frequency := "600   kHz", power := .num 20, city := "Canada",
    state := "CA", lat := .num (93 / 2), lon := .num (-80),
    operator := "Echo", id := "CJBB-600   kHz" }

/-! ## Per-line and driver lemmas, US adapter -/

set_option maxHeartbeats 1000000 in
theorem parseLine_success {l : String} {r : Station}
    (h : parseLine l = some r) :
    ∃ a b, usLatDeg l = some a ∧ usLonDeg l = some b ∧
      0 ≤ a ∧ a ≤ 90 ∧ 0 ≤ b ∧ b ≤ 180 ∧
      r = { callSign := usCallSign l, frequency := usFrequency l,
            power := .num (usPowerVal l), city := usCity l, state := usState l,
            lat := .add (.add (.num (a : ℚ)) (.div (jOfInt (usLatMin l)) (.num 60)))
                        (.div (jOfQ (usLatSec l)) (.num 3600)),
            lon := .neg (.add (.add (.num (b : ℚ)) (.div (jOfInt (usLonMin l)) (.num 60)))
                              (.div (jOfQ (usLonSec l)) (.num 3600))),
            operator := usOperator l,
            id := usCallSign l ++ "-" ++ usFrequency l } := by
  unfold parseLine at h
  split at h
  · exact absurd h (by simp)
  split at h
  · exact absurd h (by simp)
  split at h
  · exact absurd h (by simp)
  split at h
  · exact absurd h (by simp)
  split at h
  · exact absurd h (by simp)
  split at h
  · exact absurd h (by simp)
  split at h
  case _ a b heq1 heq2 =>
    split at h
    · exact absurd h (by simp)
    case _ hrange =>
      push_neg at hrange
      obtain ⟨h1, h2, h3, h4⟩ := hrange
      injection h with h
      exact ⟨a, b, heq1, heq2, h1, h2, h3, h4, h.symm⟩
  · exact absurd h (by simp)

set_option maxHeartbeats 1000000 in
theorem parseLine_none_latParts {l : String} (hlt : (usLatParts l).length < 3) :
    parseLine l = none := by
  unfold parseLine
  repeat first | split | rfl

theorem parseLine_none_lonParts {l : String} (hlt : (usLonParts l).length < 3) :
    parseLine l = none := by
  unfold parseLine
  repeat first | split | rfl

theorem parseLine_none_latDeg {l : String} (hA : usLatDeg l = none) :
    parseLine l = none := by
  unfold parseLine
  repeat first | split | rfl
  all_goals simp_all

theorem parseLine_none_lonDeg {l : String} (hB : usLonDeg l = none) :
    parseLine l = none := by
  unfold parseLine
  repeat first | split | rfl
  all_goals simp_all

theorem parseLine_none_latRange {l : String} {a : Int} (hA : usLatDeg l = some a)
    (hout : a < 0 ∨ 90 < a) : parseLine l = none := by
  unfold parseLine
  repeat first | split | rfl
  all_goals simp_all
  all_goals omega

theorem parseLine_callSign {l : String} {r : Station} (h : parseLine l = some r) :
    r.callSign = usCallSign l := by
  obtain ⟨a, b, _, _, _, _, _, _, hr⟩ := parseLine_success h
  rw [hr]

theorem usGo_not_seen {ls seen : List String} {st : Station}
    (h : st ∈ usGo ls seen) : st.callSign ∉ seen := by
  induction ls generalizing seen with
  | nil => simp [usGo] at h
  | cons l ls ih =>
    unfold usGo at h
    split at h
    · exact ih h
    split at h
    · exact ih h
    split at h
    · exact ih h
    split at h
    case _ st' heq =>
      rcases List.mem_cons.mp h with h | h
      · subst h
        rw [parseLine_callSign heq]
        assumption
      · intro hc
        exact ih h (List.mem_cons_of_mem _ hc)
    · intro hc
      exact ih h (List.mem_cons_of_mem _ hc)

theorem usGo_nodup (ls seen : List String) :
    ((usGo ls seen).map (·.callSign)).Nodup := by
  induction ls generalizing seen with
  | nil => simp [usGo]
  | cons l ls ih =>
    unfold usGo
    split
    · exact ih seen
    split
    · exact ih seen
    split
    · exact ih seen
    split
    case _ st heq =>
      refine List.Nodup.cons ?_ (ih _)
      intro hmem
      obtain ⟨st', hst', hcs⟩ := List.mem_map.mp hmem
      have hcs' : st'.callSign = st.callSign := hcs
      apply usGo_not_seen hst'
      rw [hcs', parseLine_callSign heq]
      exact List.mem_cons_self _ _
    · exact ih _

theorem usGo_cons_skip1 {l : String} {ls seen : List String}
    (h : jsTrim l = "" ∨ l.length < 250) : usGo (l :: ls) seen = usGo ls seen := by
  conv_lhs => unfold usGo
  rw [if_pos h]

theorem usGo_cons_skip2 {l : String} {ls seen : List String}
    (h1 : ¬(jsTrim l = "" ∨ l.length < 250)) (h2 : ¬jsIncludes l "Daytime" = true) :
    usGo (l :: ls) seen = usGo ls seen := by
  conv_lhs => unfold usGo
  rw [if_neg h1, if_pos h2]

theorem usGo_cons_seen {l : String} {ls seen : List String}
    (h1 : ¬(jsTrim l = "" ∨ l.length < 250)) (h2 : jsIncludes l "Daytime" = true)
    (h3 : usCallSign l ∈ seen) : usGo (l :: ls) seen = usGo ls seen := by
  conv_lhs => unfold usGo
  rw [if_neg h1, if_neg (by simpa using h2), if_pos h3]

theorem usGo_cons_some {l : String} {ls seen : List String} {st : Station}
    (h1 : ¬(jsTrim l = "" ∨ l.length < 250)) (h2 : jsIncludes l "Daytime" = true)
    (h3 : usCallSign l ∉ seen) (hp : parseLine l = some st) :
    usGo (l :: ls) seen = st :: usGo ls (usCallSign l :: seen) := by
  conv_lhs => unfold usGo
  rw [if_neg h1, if_neg (by simpa using h2), if_neg h3, hp]

theorem usGo_cons_none {l : String} {ls seen : List String}
    (h1 : ¬(jsTrim l = "" ∨ l.length < 250)) (h2 : jsIncludes l "Daytime" = true)
    (h3 : usCallSign l ∉ seen) (hp : parseLine l = none) :
    usGo (l :: ls) seen = usGo ls (usCallSign l :: seen) := by
  conv_lhs => unfold usGo
  rw [if_neg h1, if_neg (by simpa using h2), if_neg h3, hp]

theorem usEligible_true {l : String} (h1 : ¬(jsTrim l = "" ∨ l.length < 250))
    (h2 : jsIncludes l "Daytime" = true) : usEligible l = true := by
  simp [usEligible, h1, h2]

theorem usGo_filter_eq (ls : List String) (seen : List String) (c : String) :
    (usGo ls seen).filter (fun r => r.callSign == c) =
      (if c ∈ seen then []
       else
         match (ls.filter usEligible).find? (fun l => usCallSign l == c) with
         | none => []
         | some l => (parseLine l).toList) := by
  induction ls generalizing seen with
  | nil =>
    simp only [usGo, List.filter_nil, List.find?_nil]
    split <;> rfl
  | cons l ls ih =>
    by_cases h1 : jsTrim l = "" ∨ l.length < 250
    · have e : ¬ usEligible l = true := by simp [usEligible, h1]
      rw [usGo_cons_skip1 h1, List.filter_cons_of_neg e, ih seen]
    · by_cases h2 : jsIncludes l "Daytime" = true
      · have e := usEligible_true h1 h2
        by_cases h3 : usCallSign l ∈ seen
        · rw [usGo_cons_seen h1 h2 h3, List.filter_cons_of_pos e, ih seen]
          by_cases hc : usCallSign l = c
          · have hcseen : c ∈ seen := hc ▸ h3
            rw [if_pos hcseen, if_pos hcseen]
          · rw [@List.find?_cons_of_neg _ (fun t => usCallSign t == c) l _ (by simpa using hc)]
        · by_cases hc : usCallSign l = c
          · have hcseen : c ∉ seen := hc ▸ h3
            have hmem : c ∈ usCallSign l :: seen := by
              rw [← hc]; exact List.mem_cons_self _ _
            cases hp : parseLine l with
            | some st =>
              have hcs : (st.callSign == c) = true := by
                rw [parseLine_callSign hp, hc]; exact beq_self_eq_true c
              rw [usGo_cons_some h1 h2 h3 hp,
                @List.filter_cons_of_pos _ (fun r => r.callSign == c) st _ hcs,
                ih (usCallSign l :: seen), if_pos hmem, if_neg hcseen,
                List.filter_cons_of_pos e,
                @List.find?_cons_of_pos _ (fun t => usCallSign t == c) l _ (by simpa using hc)]
              show st :: ([] : List Station) = (parseLine l).toList
              rw [hp]
              rfl
            | none =>
              rw [usGo_cons_none h1 h2 h3 hp, ih (usCallSign l :: seen),
                if_pos hmem, if_neg hcseen, List.filter_cons_of_pos e,
                @List.find?_cons_of_pos _ (fun t => usCallSign t == c) l _ (by simpa using hc)]
              show ([] : List Station) = (parseLine l).toList
              rw [hp]
              rfl
          · have hnotmem : c ∉ usCallSign l :: seen → c ∉ seen := fun h hs =>
              h (List.mem_cons_of_mem _ hs)
            have hiff : (c ∈ usCallSign l :: seen) ↔ (c ∈ seen) := by
              constructor
              · intro hm
                rcases List.mem_cons.mp hm with hm | hm
                · exact absurd hm.symm hc
                · exact hm
              · exact List.mem_cons_of_mem _
            cases hp : parseLine l with
            | some st =>
              have hcs : ¬ (st.callSign == c) = true := by
                rw [parseLine_callSign hp]; simpa using hc
              rw [usGo_cons_some h1 h2 h3 hp,
                @List.filter_cons_of_neg _ (fun r => r.callSign == c) st _ hcs,
                ih (usCallSign l :: seen), List.filter_cons_of_pos e,
                @List.find?_cons_of_neg _ (fun t => usCallSign t == c) l _ (by simpa using hc)]
              by_cases hcsn : c ∈ seen
              · rw [if_pos (hiff.mpr hcsn), if_pos hcsn]
              · rw [if_neg (fun hm => hcsn (hiff.mp hm)), if_neg hcsn]
            | none =>
              rw [usGo_cons_none h1 h2 h3 hp, ih (usCallSign l :: seen),
                List.filter_cons_of_pos e,
                @List.find?_cons_of_neg _ (fun t => usCallSign t == c) l _ (by simpa using hc)]
              by_cases hcsn : c ∈ seen
              · rw [if_pos (hiff.mpr hcsn), if_pos hcsn]
              · rw [if_neg (fun hm => hcsn (hiff.mp hm)), if_neg hcsn]
      · have e : ¬ usEligible l = true := by simp [usEligible, h1, h2]
        rw [usGo_cons_skip2 h1 h2, List.filter_cons_of_neg e, ih seen]

theorem mapGet_mapSet (m : List (String × Station)) (k k2 : String) (v : Station) :
    mapGet (mapSet m k v) k2 = if k = k2 then some v else mapGet m k2 := by
  induction m with
  | nil =>
    by_cases h : k = k2 <;> simp [mapSet, mapGet, h]
  | cons p m ih =>
    obtain ⟨k', v'⟩ := p
    by_cases h : k' = k
    · subst h
      by_cases h2 : k' = k2 <;> simp [mapSet, mapGet, h2]
    · by_cases h2 : k' = k2
      · subst h2
        have hk : ¬ k = k' := fun hh => h hh.symm
        simp [mapSet, mapGet, h, hk]
      · have step : mapSet ((k', v') :: m) k v = (k', v') :: mapSet m k v := by
          simp [mapSet, h]
        have hg : mapGet ((k', v') :: mapSet m k v) k2 = mapGet (mapSet m k v) k2 := by
          simp [mapGet, List.find?_cons, h2]
        have hg2 : mapGet ((k', v') :: m) k2 = mapGet m k2 := by
          simp [mapGet, List.find?_cons, h2]
        rw [step, hg, ih, hg2]

/-! ## Driver lemmas, Canadian adapter -/

theorem caStep_none {m : List (String × Station)} {l : String}
    (hp : canadianRow l = none) : caStep m l = m := by
  unfold caStep; rw [hp]

theorem caStep_some {m : List (String × Station)} {l : String} {st : Station}
    (hp : canadianRow l = some st) :
    caStep m l =
      (match mapGet m st.id with
       | none => mapSet m st.id st
       | some existing =>
         if st.power.gt existing.power then mapSet m st.id st else m) := by
  unfold caStep; rw [hp]

theorem caStep_get {m : List (String × Station)} {l : String} {st : Station} {k : String}
    (hp : canadianRow l = some st) (hid : st.id = k) :
    mapGet (caStep m l) k = selPick (mapGet m k) st := by
  rw [caStep_some hp]
  cases hget : mapGet m st.id with
  | none =>
    have hk : mapGet m k = none := hid ▸ hget
    simp only [mapGet_mapSet, if_pos hid, hk, selPick]
  | some ex =>
    have hk : mapGet m k = some ex := hid ▸ hget
    by_cases hgt : st.power.gt ex.power
    · simp only [hgt, if_pos, mapGet_mapSet, if_pos hid, hk, selPick, if_true]
    · simp only [hgt, if_neg, hk, selPick, if_false, Bool.false_eq_true]
  
theorem caStep_get_other {m : List (String × Station)} {l : String} {st : Station} {k : String}
    (hp : canadianRow l = some st) (hid : ¬ st.id = k) :
    mapGet (caStep m l) k = mapGet m k := by
  rw [caStep_some hp]
  cases hget : mapGet m st.id with
  | none => simp only [mapGet_mapSet, if_neg hid]
  | some ex =>
    by_cases hgt : st.power.gt ex.power
    · simp only [hgt, if_pos, mapGet_mapSet, if_neg hid]
    · simp only [hgt, if_neg, Bool.false_eq_true, if_false]

theorem caFold_get (lines : List String) (m : List (String × Station)) (k : String) :
    mapGet (lines.foldl caStep m) k =
      ((lines.filterMap canadianRow).filter (fun st => st.id == k)).foldl selPick (mapGet m k) := by
  induction lines generalizing m with
  | nil => rfl
  | cons l lines ih =>
    rw [List.foldl_cons]
    cases hp : canadianRow l with
    | none =>
      rw [caStep_none hp, List.filterMap_cons_none hp]
      exact ih m
    | some st =>
      rw [List.filterMap_cons_some hp]
      by_cases hid : st.id = k
      · rw [List.filter_cons_of_pos (by simpa using hid), List.foldl_cons,
          ih (caStep m l), caStep_get hp hid]
      · rw [List.filter_cons_of_neg (by simpa using hid),
          ih (caStep m l), caStep_get_other hp hid]

theorem mapSet_mem {m : List (String × Station)} {k : String} {v : Station}
    {p : String × Station} (hp : p ∈ mapSet m k v) : p = (k, v) ∨ p ∈ m := by
  induction m with
  | nil =>
    rcases List.mem_singleton.mp hp with rfl
    exact Or.inl rfl
  | cons q m ih =>
    obtain ⟨k', v'⟩ := q
    by_cases h : k' = k
    · subst h
      simp only [mapSet, if_pos rfl] at hp
      rcases List.mem_cons.mp hp with rfl | hp
      · exact Or.inl rfl
      · exact Or.inr (List.mem_cons_of_mem _ hp)
    · simp only [mapSet, if_neg h] at hp
      rcases List.mem_cons.mp hp with rfl | hp
      · exact Or.inr (List.mem_cons_self _ _)
      · rcases ih hp with h2 | h2
        · exact Or.inl h2
        · exact Or.inr (List.mem_cons_of_mem _ h2)

theorem mapSet_keys_mem {m : List (String × Station)} {k k2 : String} {v : Station}
    (h : k2 ∈ (mapSet m k v).map (·.1)) : k2 = k ∨ k2 ∈ m.map (·.1) := by
  obtain ⟨p, hp, hpk⟩ := List.mem_map.mp h
  rcases mapSet_mem hp with rfl | hp
  · exact Or.inl hpk.symm
  · exact Or.inr (List.mem_map.mpr ⟨p, hp, hpk⟩)

theorem mapSet_keys_nodup {m : List (String × Station)} {k : String} {v : Station}
    (hn : (m.map (·.1)).Nodup) : ((mapSet m k v).map (·.1)).Nodup := by
  induction m with
  | nil => exact List.nodup_singleton k
  | cons q m ih =>
    obtain ⟨k', v'⟩ := q
    simp only [List.map_cons, List.nodup_cons] at hn
    obtain ⟨hk', hn'⟩ := hn
    by_cases h : k' = k
    · subst h
      have hset : mapSet ((k', v') :: m) k' v = (k', v) :: m := by simp [mapSet]
      rw [hset, List.map_cons, List.nodup_cons]
      exact ⟨hk', hn'⟩
    · simp only [mapSet, if_neg h, List.map_cons, List.nodup_cons]
      refine ⟨?_, ih hn'⟩
      intro hmem
      rcases mapSet_keys_mem hmem with rfl | hmem
      · exact h rfl
      · exact hk' hmem

theorem mapWF_mapSet {m : List (String × Station)} {k : String} {v : Station}
    (h : mapWF m) (hv : v.id = k) : mapWF (mapSet m k v) := by
  refine ⟨mapSet_keys_nodup h.1, ?_⟩
  intro p hp
  rcases mapSet_mem hp with rfl | hp
  · exact hv
  · exact h.2 p hp

theorem mapWF_caStep {m : List (String × Station)} {l : String}
    (h : mapWF m) : mapWF (caStep m l) := by
  cases hp : canadianRow l with
  | none => rw [caStep_none hp]; exact h
  | some st =>
    rw [caStep_some hp]
    cases mapGet m st.id with
    | none => exact mapWF_mapSet h rfl
    | some ex =>
      by_cases hgt : st.power.gt ex.power
      · simp only [hgt, if_true]
        exact mapWF_mapSet h rfl
      · simp only [hgt, Bool.false_eq_true, if_false]
        exact h

theorem mapWF_fold (lines : List String) (m : List (String × Station))
    (h : mapWF m) : mapWF (lines.foldl caStep m) := by
  induction lines generalizing m with
  | nil => exact h
  | cons l lines ih => exact ih _ (mapWF_caStep h)

theorem valuesFilter {m : List (String × Station)} (h : mapWF m) (k : String) :
    (m.map (·.2)).filter (fun r => r.id == k) = (mapGet m k).toList := by
  induction m with
  | nil => rfl
  | cons p m ih =>
    obtain ⟨k', v⟩ := p
    obtain ⟨hn, hi⟩ := h
    simp only [List.map_cons, List.nodup_cons] at hn
    have hvk : v.id = k' := hi ⟨k', v⟩ (List.mem_cons_self _ _)
    have h' : mapWF m := ⟨hn.2, fun q hq => hi q (List.mem_cons_of_mem _ hq)⟩
    by_cases hk : k' = k
    · subst hk
      have hfv : (v.id == k') = true := by simp [hvk]
      rw [List.map_cons]
      rw [@List.filter_cons_of_pos _ (fun r => r.id == k') v _ hfv]
      have hrest : (m.map (·.2)).filter (fun r => r.id == k') = [] := by
        rw [List.filter_eq_nil_iff]
        intro r hr
        obtain ⟨q, hq, hqr⟩ := List.mem_map.mp hr
        have : r.id = q.1 := hqr ▸ hi q (List.mem_cons_of_mem _ hq)
        simp only [beq_iff_eq, this]
        intro hq1
        exact hn.1 (List.mem_map.mpr ⟨q, hq, hq1⟩)
      rw [hrest]
      have hget : mapGet ((k', v) :: m) k' = some v := by
        simp [mapGet, List.find?_cons]
      rw [hget]
      rfl
    · have hfv : ¬ (v.id == k) = true := by simp [hvk, hk]
      rw [List.map_cons]
      rw [@List.filter_cons_of_neg _ (fun r => r.id == k) v _ hfv, ih h']
      have hget : mapGet ((k', v) :: m) k = mapGet m k := by
        simp [mapGet, List.find?_cons, hk]
      rw [hget]

theorem JSNum.gt_iff {a b : JSNum} :
    a.gt b = true ↔ ∃ qa qb : ℚ, a = num qa ∧ b = num qb ∧ qb < qa := by
  cases a <;> cases b <;> simp [JSNum.gt]

theorem JSNum.le_iff {a b : JSNum} :
    a.le b = true ↔ ∃ qa qb : ℚ, a = num qa ∧ b = num qb ∧ qa ≤ qb := by
  cases a <;> cases b <;> simp [JSNum.le]

theorem JSNum.le_refl_of_num {a : JSNum} (h : ¬ a.isNaN = true) : a.le a = true := by
  cases a with
  | nan => simp [JSNum.isNaN] at h
  | num q => simp [JSNum.le]

theorem JSNum.le_of_not_gt {a b : JSNum} (ha : ¬ a.isNaN = true) (hb : ¬ b.isNaN = true)
    (h : ¬ a.gt b = true) : a.le b = true := by
  cases a with
  | nan => simp [JSNum.isNaN] at ha
  | num qa =>
    cases b with
    | nan => simp [JSNum.isNaN] at hb
    | num qb =>
      simp only [JSNum.gt, decide_eq_true_eq] at h
      simp only [JSNum.le, decide_eq_true_eq]
      exact le_of_not_lt h

theorem JSNum.le_trans_gt {a b c : JSNum} (h1 : a.le b = true) (h2 : c.gt b = true) :
    a.le c = true := by
  obtain ⟨qa, qb, rfl, rfl, hab⟩ := JSNum.le_iff.mp h1
  obtain ⟨qc, qb', hc, hb', hbc⟩ := JSNum.gt_iff.mp h2
  cases hb'
  subst hc
  simp only [JSNum.le, decide_eq_true_eq]
  exact le_of_lt (lt_of_le_of_lt hab hbc)

theorem JSNum.ne_of_le_gt {a b c : JSNum} (h1 : a.le b = true) (h2 : c.gt b = true) :
    ¬ (a == c) = true := by
  obtain ⟨qa, qb, rfl, rfl, hab⟩ := JSNum.le_iff.mp h1
  obtain ⟨qc, qb', hc, hb', hbc⟩ := JSNum.gt_iff.mp h2
  cases hb'
  subst hc
  simp only [beq_iff_eq, JSNum.num.injEq]
  intro hq
  subst hq
  exact absurd hbc (not_lt_of_le hab)

theorem selPick_fold_spec (l : List Station) :
    ∀ (C : List Station) (s s2 : Station),
      (∀ t ∈ C, ¬ t.power.isNaN = true) → (∀ t ∈ l, ¬ t.power.isNaN = true) →
      s ∈ C → (∀ t ∈ C, t.power.le s.power = true) →
      C.find? (fun t => t.power == s.power) = some s →
      l.foldl selPick (some s) = some s2 →
      s2 ∈ C ++ l ∧ (∀ t ∈ C ++ l, t.power.le s2.power = true) ∧
        (C ++ l).find? (fun t => t.power == s2.power) = some s2 := by
  induction l with
  | nil =>
    intro C s s2 hCn _ hmem hle hfind hfold
    simp only [List.foldl_nil, Option.some.injEq] at hfold
    subst hfold
    simpa using ⟨hmem, hle, hfind⟩
  | cons t l ih =>
    intro C s s2 hCn hln hmem hle hfind hfold
    have htn : ¬ t.power.isNaN = true := hln t (List.mem_cons_self _ _)
    have hln' : ∀ u ∈ l, ¬ u.power.isNaN = true :=
      fun u hu => hln u (List.mem_cons_of_mem _ hu)
    have hsn : ¬ s.power.isNaN = true := hCn s hmem
    rw [List.foldl_cons] at hfold
    by_cases hgt : t.power.gt s.power
    · rw [show selPick (some s) t = some t from by simp [selPick, hgt]] at hfold
      have h1 : ∀ u ∈ C ++ [t], ¬ u.power.isNaN = true := by
        intro u hu
        rcases List.mem_append.mp hu with hu | hu
        · exact hCn u hu
        · rcases List.mem_singleton.mp hu with rfl; exact htn
      have h2 : t ∈ C ++ [t] := List.mem_append_right _ (List.mem_singleton.mpr rfl)
      have h3 : ∀ u ∈ C ++ [t], u.power.le t.power = true := by
        intro u hu
        rcases List.mem_append.mp hu with hu | hu
        · exact JSNum.le_trans_gt (hle u hu) hgt
        · rcases List.mem_singleton.mp hu with rfl
          exact JSNum.le_refl_of_num htn
      have h4 : (C ++ [t]).find? (fun u => u.power == t.power) = some t := by
        rw [List.find?_append]
        have hnone : C.find? (fun u => u.power == t.power) = none := by
          rw [List.find?_eq_none]
          intro u hu
          exact JSNum.ne_of_le_gt (hle u hu) hgt
        rw [hnone]
        simp [List.find?_cons]
      have := ih (C ++ [t]) t s2 h1 hln' h2 h3 h4 hfold
      rwa [List.append_assoc, List.singleton_append] at this
    · rw [show selPick (some s) t = some s from by simp [selPick, hgt]] at hfold
      have h1 : ∀ u ∈ C ++ [t], ¬ u.power.isNaN = true := by
        intro u hu
        rcases List.mem_append.mp hu with hu | hu
        · exact hCn u hu
        · rcases List.mem_singleton.mp hu with rfl; exact htn
      have h2 : s ∈ C ++ [t] := List.mem_append_left _ hmem
      have h3 : ∀ u ∈ C ++ [t], u.power.le s.power = true := by
        intro u hu
        rcases List.mem_append.mp hu with hu | hu
        · exact hle u hu
        · rcases List.mem_singleton.mp hu with rfl
          exact JSNum.le_of_not_gt htn hsn hgt
      have h4 : (C ++ [t]).find? (fun u => u.power == s.power) = some s := by
        rw [List.find?_append, hfind]
        rfl
      have := ih (C ++ [t]) s s2 h1 hln' h2 h3 h4 hfold
      rwa [List.append_assoc, List.singleton_append] at this

theorem selBest_spec {l : List Station} {s : Station}
    (hnn : ∀ t ∈ l, ¬ t.power.isNaN = true) (h : selBest l = some s) :
    s ∈ l ∧ (∀ t ∈ l, t.power.le s.power = true) ∧
      l.find? (fun t => t.power == s.power) = some s := by
  cases l with
  | nil => simp [selBest] at h
  | cons t l =>
    have htn : ¬ t.power.isNaN = true := hnn t (List.mem_cons_self _ _)
    have hstep : selBest (t :: l) = l.foldl selPick (some t) := by
      simp [selBest, List.foldl_cons, selPick]
    rw [hstep] at h
    have := selPick_fold_spec l [t] t s
      (by intro u hu; rcases List.mem_singleton.mp hu with rfl; exact htn)
      (fun u hu => hnn u (List.mem_cons_of_mem _ hu))
      (List.mem_singleton.mpr rfl)
      (by intro u hu; rcases List.mem_singleton.mp hu with rfl
          exact JSNum.le_refl_of_num htn)
      (by simp [List.find?_cons]) h
    rwa [List.singleton_append] at this

theorem selBest_isSome {l : List Station} : (selBest l).isSome = true ↔ l ≠ [] := by
  constructor
  · intro h hnil
    subst hnil
    simp [selBest] at h
  · intro h
    cases l with
    | nil => exact absurd rfl h
    | cons t l =>
      have hstep : selBest (t :: l) = l.foldl selPick (some t) := by
        simp [selBest, List.foldl_cons, selPick]
      rw [hstep]
      clear hstep h
      induction l generalizing t with
      | nil => rfl
      | cons u l ih =>
        rw [List.foldl_cons]
        cases hss : selPick (some t) u with
        | none => simp [selPick] at hss; split at hss <;> simp_all
        | some w => rw [← hss]; exact hss ▸ ih w

set_option maxHeartbeats 1000000 in
theorem canadianRow_success {l : String} {st : Station} (h : canadianRow l = some st) :
    ∃ la lo : ℚ, caLat l = some la ∧ caLon l = some lo ∧
      ¬ (caPowerVal l).isNaN = true ∧ ¬ caRawCallSign l = "" ∧ ¬ (la = 0 ∧ lo = 0) ∧
      st = { callSign := caBase (caRawCallSign l), frequency := caFreqStr l,
             power := caPowerVal l, city := "Canada", state := "CA",
             lat := .num la, lon := .num lo, operator := caOperator l,
             id := caBase (caRawCallSign l) ++ "-" ++ caFreqStr l } := by
  unfold canadianRow at h
  split at h
  · exact absurd h (by simp)
  split at h
  · exact absurd h (by simp)
  split at h
  · exact absurd h (by simp)
  split at h
  case _ la lo heq1 heq2 =>
    split at h
    · exact absurd h (by simp)
    case _ hval =>
      push_neg at hval
      obtain ⟨h1, h2, h3⟩ := hval
      injection h with h
      exact ⟨la, lo, heq1, heq2, by simpa using h1, h2, by
        intro hc
        exact absurd hc.2 (h3 hc.1), h.symm⟩
  · exact absurd h (by simp)

theorem caMap_wf (csv : String) : mapWF ((caDataLines csv).foldl caStep []) :=
  mapWF_fold _ [] ⟨List.nodup_nil, by intro p hp; cases hp⟩

theorem caOutput_filter (csv : String) (k : String) :
    (parseCanadianStationData csv).filter (fun r => r.id == k) =
      (selBest ((caAccepted csv).filter (fun st => st.id == k))).toList := by
  unfold parseCanadianStationData
  rw [valuesFilter (caMap_wf csv) k, caFold_get]
  rfl

theorem caAccepted_not_nan {csv : String} {st : Station}
    (h : st ∈ caAccepted csv) : ¬ st.power.isNaN = true := by
  obtain ⟨l, _, hrow⟩ := List.mem_filterMap.mp h
  obtain ⟨la, lo, _, _, hnn, _, _, hst⟩ := canadianRow_success hrow
  rw [hst]
  exact hnn

theorem caOutput_selBest {csv : String} {r : Station}
    (h : r ∈ parseCanadianStationData csv) :
    selBest ((caAccepted csv).filter (fun st => st.id == r.id)) = some r := by
  have hmem : r ∈ (parseCanadianStationData csv).filter (fun t => t.id == r.id) :=
    List.mem_filter.mpr ⟨h, by simp⟩
  rw [caOutput_filter csv r.id] at hmem
  cases hsel : selBest ((caAccepted csv).filter (fun st => st.id == r.id)) with
  | none => rw [hsel] at hmem; cases hmem
  | some s =>
    rw [hsel] at hmem
    rcases List.mem_singleton.mp hmem with rfl
    rfl

theorem caOutput_exists_of_accepted {csv : String} {t : Station}
    (h : t ∈ caAccepted csv) :
    ∃ s ∈ parseCanadianStationData csv, s.id = t.id := by
  have hmem : t ∈ (caAccepted csv).filter (fun st => st.id == t.id) :=
    List.mem_filter.mpr ⟨h, by simp⟩
  have hne : (caAccepted csv).filter (fun st => st.id == t.id) ≠ [] :=
    List.ne_nil_of_mem hmem
  obtain ⟨s, hs⟩ := Option.isSome_iff_exists.mp (selBest_isSome.mpr hne)
  have hsl : s ∈ (caAccepted csv).filter (fun st => st.id == t.id) :=
    (selBest_spec (fun u hu => caAccepted_not_nan (List.mem_filter.mp hu).1) hs).1
  have hsid : s.id = t.id := by
    have := (List.mem_filter.mp hsl).2
    simpa using this
  refine ⟨s, ?_, hsid⟩
  have : s ∈ (parseCanadianStationData csv).filter (fun r => r.id == t.id) := by
    rw [caOutput_filter csv t.id, hs]
    exact List.mem_singleton.mpr rfl
  exact (List.mem_filter.mp this).1

theorem caOutput_from_row {csv : String} {r : Station}
    (h : r ∈ parseCanadianStationData csv) :
    ∃ l ∈ caDataLines csv, canadianRow l = some r := by
  have hs := caOutput_selBest h
  have hmem : r ∈ (caAccepted csv).filter (fun st => st.id == r.id) :=
    (selBest_spec (fun u hu => caAccepted_not_nan (List.mem_filter.mp hu).1) hs).1
  have : r ∈ caAccepted csv := (List.mem_filter.mp hmem).1
  exact List.mem_filterMap.mp this

theorem caOutput_ids_nodup (csv : String) :
    ((parseCanadianStationData csv).map (·.id)).Nodup := by
  obtain ⟨hn, hi⟩ := caMap_wf csv
  unfold parseCanadianStationData
  rw [List.map_map]
  have : ((caDataLines csv).foldl caStep []).map ((·.id) ∘ (·.2)) =
      ((caDataLines csv).foldl caStep []).map (·.1) :=
    List.map_congr_left fun p hp => hi p hp
  rw [this]
  exact hn

theorem usGo_mem_parseLine {ls seen : List String} {r : Station}
    (h : r ∈ usGo ls seen) : ∃ l ∈ ls, parseLine l = some r := by
  induction ls generalizing seen with
  | nil => simp [usGo] at h
  | cons l ls ih =>
    unfold usGo at h
    split at h
    · obtain ⟨l2, hl2, hp⟩ := ih h
      exact ⟨l2, List.mem_cons_of_mem _ hl2, hp⟩
    split at h
    · obtain ⟨l2, hl2, hp⟩ := ih h
      exact ⟨l2, List.mem_cons_of_mem _ hl2, hp⟩
    split at h
    · obtain ⟨l2, hl2, hp⟩ := ih h
      exact ⟨l2, List.mem_cons_of_mem _ hl2, hp⟩
    split at h
    case _ st heq =>
      rcases List.mem_cons.mp h with rfl | h
      · exact ⟨l, List.mem_cons_self _ _, heq⟩
      · obtain ⟨l2, hl2, hp⟩ := ih h
        exact ⟨l2, List.mem_cons_of_mem _ hl2, hp⟩
    · obtain ⟨l2, hl2, hp⟩ := ih h
      exact ⟨l2, List.mem_cons_of_mem _ hl2, hp⟩

theorem usOutput_from_line {t : String} {r : Station}
    (h : r ∈ parseStationData t) :
    ∃ l ∈ jsSplitChar (jsTrim t) '\n', parseLine l = some r :=
  usGo_mem_parseLine h

theorem jsNumTemplate_shape (j : JSNum) :
    jsNumTemplate j = "NaN" ∨ ∃ n : ℤ, jsNumTemplate j = toString n := by
  cases j with
  | nan => exact Or.inl rfl
  | num q => exact Or.inr ⟨⌊q⌋, rfl⟩

theorem splitCharGo_head_no_sep (sep : Char) :
    ∀ (l cur : List Char), sep ∉ cur →
      sep ∉ (splitCharGo sep l cur).getD 0 [] := by
  intro l
  induction l with
  | nil =>
    intro cur hcur
    simpa [splitCharGo] using fun hc => hcur (List.mem_reverse.mp hc)
  | cons c cs ih =>
    intro cur hcur
    by_cases hc : c = sep
    · subst hc
      simpa [splitCharGo] using fun hc2 => hcur (List.mem_reverse.mp hc2)
    · have : sep ∉ c :: cur := by
        intro hm
        rcases List.mem_cons.mp hm with rfl | hm
        · exact hc rfl
        · exact hcur hm
      simpa [splitCharGo, hc] using ih (c :: cur) this

theorem caBase_no_dash (s : String) : '-' ∉ (caBase s).data := by
  unfold caBase jsSplitChar
  have h := splitCharGo_head_no_sep '-' s.data [] (by simp)
  cases hsp : splitCharGo '-' s.data [] with
  | nil => simp
  | cons hd tl =>
    rw [hsp] at h
    simpa using h

/-! ## Claims -/

section DecideEvalA

attribute [local semireducible] Rat.mul Rat.add Rat.sub Rat.inv

set_option maxRecDepth 40000 in
/-- C1 counterexample: a pair of input texts on which the merged output
contains two records with the same `id`.  The two US lines carry call signs
`AB-C` (frequency column `D`) and `AB` (frequency column `C-D`); both parse,
and both derived ids are `AB-C-D`, so the merged id sequence is not
duplicate-free. -/
theorem c1_counterexample :
    ¬ ((loadAllStations (usLineIdA ++ "\n" ++ usLineIdB) "").map (·.id)).Nodup := by
  decide

/-- C1 amended: within one parsed batch, the Canadian adapter's records have
pairwise distinct `id`s (they are the keys of its dedup map), and the US
adapter's records have pairwise distinct `callSign`s (its dedup key); `id`
uniqueness of the merged concatenation does not hold in general. -/
theorem c1_amended (usText caText : String) :
    ((parseCanadianStationData caText).map (·.id)).Nodup ∧
      ((parseStationData usText).map (·.callSign)).Nodup :=
  ⟨caOutput_ids_nodup caText, usGo_nodup _ _⟩

set_option maxRecDepth 40000 in
/-- C2 counterexample: an input whose two lines share the extracted call
sign `WAAA`; the first passes the length and `Daytime` checks but has no
` US ` anchor, so it claims the `seen` slot and is then rejected, and the
adapter emits no record at all for that call sign — not exactly one. -/
theorem c2_counterexample :
    usCallSign usLineSeenBad = "WAAA" ∧ usCallSign usLineSeenGood = "WAAA" ∧
      parseStationData (usLineSeenBad ++ "\n" ++ usLineSeenGood) = [] := by
  refine ⟨by decide, by decide, by decide⟩

/-- C2 amended: for every input text and call sign, the records the US
adapter emits with that call sign are exactly the parse result of the
*first* line bearing it among the lines passing the blank/length/`Daytime`
pre-checks — one record when that line parses, none otherwise (even when a
later line with the same call sign would parse). -/
theorem c2_amended (fileContent c : String) :
    (parseStationData fileContent).filter (fun r => r.callSign == c) =
      (match ((jsSplitChar (jsTrim fileContent) '\n').filter usEligible).find?
          (fun l => usCallSign l == c) with
       | none => []
       | some l => (parseLine l).toList) := by
  unfold parseStationData
  rw [usGo_filter_eq]
  rfl

/-- C3 confirmed: for every CSV and every key, the Canadian adapter outputs
exactly one record among the accepted rows sharing that `id` key — a record
of one of those rows, with power at least every such row's power, and equal
to the *first* accepted row attaining that power (an incoming row replaces
the stored one only when strictly more powerful, so ties keep the earliest);
conversely every accepted row's key is represented in the output. -/
theorem c3_power_priority (csv : String) :
    (∀ s ∈ parseCanadianStationData csv,
      (parseCanadianStationData csv).filter (fun r => r.id == s.id) = [s] ∧
      (∃ l ∈ caDataLines csv, canadianRow l = some s) ∧
      (∀ t ∈ caAccepted csv, t.id = s.id → t.power.le s.power = true) ∧
      ((caAccepted csv).filter (fun t => t.id == s.id)).find?
          (fun t => t.power == s.power) = some s) ∧
    (∀ t ∈ caAccepted csv, ∃ s ∈ parseCanadianStationData csv, s.id = t.id) := by
  constructor
  · intro s hs
    have hsel := caOutput_selBest hs
    have hnn : ∀ u ∈ (caAccepted csv).filter (fun st => st.id == s.id),
        ¬ u.power.isNaN = true :=
      fun u hu => caAccepted_not_nan (List.mem_filter.mp hu).1
    obtain ⟨hmem, hle, hfind⟩ := selBest_spec hnn hsel
    refine ⟨?_, ?_, ?_, hfind⟩
    · rw [caOutput_filter csv s.id, hsel]
      rfl
    · exact caOutput_from_row hs
    · intro t ht htid
      exact hle t (List.mem_filter.mpr ⟨ht, by simp [htid]⟩)
  · intro t ht
    exact caOutput_exists_of_accepted ht

set_option maxRecDepth 40000 in
/-- C3 witness: on `caCsvBest` (rows `CFAA` 50 kW, `CFAA-AX1` 80 kW,
`CFAA` 80 kW, `CJBB` 20 kW) the record kept for key `CFAA-540   kHz` is the
80 kW `CFAA-AX1` row — the first row attaining the maximal power. -/
theorem c3_witness :
    (parseCanadianStationData caCsvBest).filter (fun r => r.id == stCFAA.id) = [stCFAA] ∧
      ((caAccepted caCsvBest).filter (fun t => t.id == stCFAA.id)).find?
        (fun t => t.power == stCFAA.power) = some stCFAA :=
  ⟨((c3_power_priority caCsvBest).1 stCFAA (by decide)).1,
   ((c3_power_priority caCsvBest).1 stCFAA (by decide)).2.2.2⟩

set_option maxRecDepth 40000 in
/-- C4 counterexample: `usLineLatOver` has `latDeg = 89` and `latMin = 120`;
the degree validation passes and the US adapter emits a record whose decimal
latitude is `91`, outside `[-90, 90]`. -/
theorem c4_counterexample :
    (parseStationData usLineLatOver).map (·.lat) = [JSNum.num 91] ∧
      ¬ ((91 : ℚ) ≤ 90) := by
  refine ⟨by decide, by norm_num⟩

/-- C4 amended: the degree-component validation is real — every record the
US adapter emits comes from a line whose raw latitude degree lies in
`[0, 90]` and raw longitude degree in `[0, 180]`, and a line whose latitude
degree falls outside `[0, 90]` (e.g. `latDeg = 91`) is rejected outright —
but the decimal `lat` itself is not confined to `[-90, 90]`, since the
minute/second components are never validated. -/
theorem c4_amended :
    (∀ (t : String) (r : Station), r ∈ parseStationData t →
      ∃ l a b, parseLine l = some r ∧ usLatDeg l = some a ∧ usLonDeg l = some b ∧
        0 ≤ a ∧ a ≤ 90 ∧ 0 ≤ b ∧ b ≤ 180) ∧
    (∀ (l : String) (a : Int), usLatDeg l = some a → (a < 0 ∨ 90 < a) →
      parseLine l = none) := by
  constructor
  · intro t r hr
    obtain ⟨l, _, hp⟩ := usOutput_from_line hr
    obtain ⟨a, b, ha, hb, h1, h2, h3, h4, _⟩ := parseLine_success hp
    exact ⟨l, a, b, hp, ha, hb, h1, h2, h3, h4⟩
  · intro l a ha hout
    exact parseLine_none_latRange ha hout

set_option maxRecDepth 40000 in
/-- C4 witness: the well-formed line `usLineGood` yields a record whose
degree components are in range, and `usLineLatBad` (`latDeg = 91`) is
rejected. -/
theorem c4_witness :
    (∃ l a b, parseLine l = some stWABC ∧ usLatDeg l = some a ∧ usLonDeg l = some b ∧
      0 ≤ a ∧ a ≤ 90 ∧ 0 ≤ b ∧ b ≤ 180) ∧
    parseLine usLineLatBad = none :=
  ⟨c4_amended.1 usLineGood stWABC (by decide),
   c4_amended.2 usLineLatBad 91 (by decide) (Or.inr (by norm_num))⟩

set_option maxRecDepth 40000 in
/-- C5 counterexample: the US adapter copies the raw frequency column, so on
`usLineGood` the merged output's only record has frequency `"770"`, which is
not of the form `"<integer>   kHz"` with the three-space separator. -/
theorem c5_counterexample :
    (loadAllStations usLineGood "").map (·.frequency) = ["770"] ∧
      ∀ n : ℤ, ("770" : String) ≠ toString n ++ "   kHz" := by
  refine ⟨by decide, ?_⟩
  intro n h
  have hlen := congrArg String.length h
  rw [String.length_append] at hlen
  have h6 : ("   kHz" : String).length = 6 := rfl
  have h3 : ("770" : String).length = 3 := rfl
  omega

/-- C5 amended: every record the Canadian adapter emits has a frequency of
the form `"<p>   kHz"` (three embedded spaces) where `p` is the decimal
numeral of `Math.round(frequencyMHz * 1000)` — an integer numeral when the
frequency column parses, the literal `"NaN"` otherwise; US-adapter records
carry the raw trimmed text of columns `[14, 23)`, with no canonical form. -/
theorem c5_amended (caText : String) (r : Station)
    (h : r ∈ parseCanadianStationData caText) :
    ∃ p, r.frequency = p ++ "   kHz" ∧ (p = "NaN" ∨ ∃ n : ℤ, p = toString n) := by
  obtain ⟨l, _, hrow⟩ := caOutput_from_row h
  obtain ⟨la, lo, _, _, _, _, _, hst⟩ := canadianRow_success hrow
  refine ⟨jsNumTemplate (jsRound (JSNum.mul (jOfQ (parseFloatJS ((caColumns l).getD 1 ""))) (.num 1000))), ?_, ?_⟩
  · rw [hst]
    rfl
  · exact jsNumTemplate_shape _

set_option maxRecDepth 40000 in
/-- C5 witness: the `CJBB` record of `caCsvBest` has frequency
`"600   kHz"`, i.e. the numeral `600` followed by the three-space unit. -/
theorem c5_witness :
    ∃ p, stCJBB.frequency = p ++ "   kHz" ∧ (p = "NaN" ∨ ∃ n : ℤ, p = toString n) :=
  c5_amended caCsvBest stCJBB (by decide)

set_option maxRecDepth 40000 in
/-- C6 counterexample: on `usLineTok` the latitude triplet is `12 ab cd` —
three tokens of which only the degree is numeric, so it does *not* parse to
three numeric tokens — yet the line is not rejected: the adapter emits one
record (with `lat = NaN`). -/
theorem c6_counterexample :
    (usLatParts usLineTok).length = 3 ∧
      parseIntJS ((usLatParts usLineTok).getD 1 "") = none ∧
      (parseStationData usLineTok).map (·.lat) = [JSNum.nan] := by
  refine ⟨by decide, by decide, by decide⟩

/-- C6 amended: a line whose latitude or longitude triplet has fewer than
three whitespace-separated tokens is rejected, as is a line whose latitude
or longitude *degree* token fails to parse; non-numeric minute or second
tokens do not cause rejection (the record is emitted with a `NaN`
coordinate). -/
theorem c6_amended (l : String) :
    ((usLatParts l).length < 3 → parseLine l = none) ∧
    ((usLonParts l).length < 3 → parseLine l = none) ∧
    (usLatDeg l = none → parseLine l = none) ∧
    (usLonDeg l = none → parseLine l = none) :=
  ⟨parseLine_none_latParts, parseLine_none_lonParts,
   parseLine_none_latDeg, parseLine_none_lonDeg⟩

set_option maxRecDepth 40000 in
/-- C6 witness: `usLineTwoTok` has a two-token latitude triplet and is
rejected. -/
theorem c6_witness :
    (usLatParts usLineTwoTok).length < 3 ∧ parseLine usLineTwoTok = none :=
  ⟨by decide, (c6_amended usLineTwoTok).1 (by decide)⟩

set_option maxRecDepth 40000 in
/-- C7 counterexample: on `usLineNegPow` the token before `kW` is `-5`,
which parses as a float; the adapter emits the record with `power = -5`,
violating `power ≥ 0`. -/
theorem c7_counterexample :
    (parseStationData usLineNegPow).map (·.power) = [JSNum.num (-5)] ∧
      ¬ ((0 : ℚ) ≤ -5) := by
  refine ⟨by decide, by norm_num⟩

/-- C7 amended: the power extraction is total — every record the per-line
parser emits carries exactly the value `usPowerVal` of its line, and when
the token before `kW` fails to parse as a float the record is still emitted
with power `0` (likewise when `kW` is absent); however the emitted power is
not guaranteed nonnegative, since a parsable negative token passes through. -/
theorem c7_amended (l : String) (r : Station) (h : parseLine l = some r) :
    r.power = JSNum.num (usPowerVal l) ∧
      (parseFloatJS (usPowerTok l) = none → r.power = JSNum.num 0) := by
  obtain ⟨a, b, _, _, _, _, _, _, hst⟩ := parseLine_success h
  constructor
  · rw [hst]
  · intro hnone
    rw [hst]
    show JSNum.num (usPowerVal l) = JSNum.num 0
    unfold usPowerVal
    split
    · rw [hnone]
    · rfl

set_option maxRecDepth 40000 in
/-- C7 witness: `usLineBadPow` has the unparsable power token `abc`; the
record is emitted anyway, with power `0`. -/
theorem c7_witness :
    parseFloatJS (usPowerTok usLineBadPow) = none ∧ stKPOW.power = JSNum.num 0 :=
  ⟨by decide, (c7_amended usLineBadPow stKPOW (by decide)).2 (by decide)⟩

end DecideEvalA

/-- C8 amended: an accepted US record's `lon` is the negation of
`lonDeg + lonMin/60 + lonSec/3600` with `lonDeg ∈ [0, 180]` enforced;
whenever the minute and second tokens parse to nonnegative values (as in
any well-formed feed) the emitted `lon` is ≤ 0, but negative minute or
second tokens can push it positive. -/
theorem c8_amended (l : String) (r : Station) (m : Int) (s : ℚ)
    (h : parseLine l = some r) (hm : usLonMin l = some m) (hs : usLonSec l = some s)
    (hm0 : 0 ≤ m) (hs0 : 0 ≤ s) :
    ∃ q : ℚ, r.lon = JSNum.num q ∧ q ≤ 0 := by
  obtain ⟨a, b, ha, hb, _, _, hb0, _, hst⟩ := parseLine_success h
  refine ⟨-((b : ℚ) + (m : ℚ) / 60 + s / 3600), ?_, ?_⟩
  · rw [hst, hm, hs]
    norm_num [jOfInt, jOfQ, JSNum.div, JSNum.add, JSNum.neg]
  · have hb0' : (0 : ℚ) ≤ (b : ℚ) := by exact_mod_cast hb0
    have hm0' : (0 : ℚ) ≤ (m : ℚ) := by exact_mod_cast hm0
    have h1 : (0 : ℚ) ≤ (m : ℚ) / 60 := by positivity
    have h2 : (0 : ℚ) ≤ s / 3600 := by positivity
    linarith

section DecideEvalB

attribute [local semireducible] Rat.mul Rat.add Rat.sub Rat.inv

set_option maxRecDepth 40000 in
/-- C8 counterexample: `usLinePosLon` has `lonDeg = 0` and `lonMin = -60`;
the degree validation passes (`0 ∈ [0, 180]`) and the emitted record has
`lon = 1 > 0`, violating `lon ≤ 0`. -/
theorem c8_counterexample :
    (parseStationData usLinePosLon).map (·.lon) = [JSNum.num 1] ∧
      ¬ ((1 : ℚ) ≤ 0) := by
  refine ⟨by decide, by norm_num⟩

set_option maxRecDepth 40000 in
/-- C8 witness: on `usLineGood` (`lonMin = 58 ≥ 0`, `lonSec = 0 ≥ 0`) the
emitted longitude is `-2219/30 ≤ 0`. -/
theorem c8_witness :
    ∃ q : ℚ, stWABC.lon = JSNum.num q ∧ q ≤ 0 :=
  c8_amended usLineGood stWABC 58 0 (by decide) (by decide) (by decide)
    (by norm_num) (by norm_num)

end DecideEvalB

/-- C10 confirmed: every record the current Canadian adapter emits has its
`callSign` field equal to the source row's call-sign column truncated at the
first `-` (not merely the `id` key), and consequently contains no `-` — no
auxiliary-transmitter suffix survives. -/
theorem c10_base_callsign (csv : String) (r : Station)
    (h : r ∈ parseCanadianStationData csv) :
    ∃ l ∈ caDataLines csv, canadianRow l = some r ∧
      r.callSign = caBase (caRawCallSign l) ∧ '-' ∉ r.callSign.data := by
  obtain ⟨l, hl, hrow⟩ := caOutput_from_row h
  obtain ⟨la, lo, _, _, _, _, _, hst⟩ := canadianRow_success hrow
  refine ⟨l, hl, hrow, ?_, ?_⟩
  · rw [hst]
  · rw [hst]
    exact caBase_no_dash _

section DecideEvalC

attribute [local semireducible] Rat.mul Rat.add Rat.sub Rat.inv

set_option maxRecDepth 40000 in
/-- C10 witness: the winning `CFAA` record of `caCsvBest` comes from the
`CFAA-AX1` row, and its emitted call sign is the truncated `CFAA`, free of
the `-AX1` suffix. -/
theorem c10_witness :
    ∃ l ∈ caDataLines caCsvBest, canadianRow l = some stCFAA ∧
      stCFAA.callSign = caBase (caRawCallSign l) ∧ '-' ∉ stCFAA.callSign.data :=
  c10_base_callsign caCsvBest stCFAA (by decide)

end DecideEvalC

/-! ## Geodesy bounds -/

theorem atan2_of_pos {y x : ℝ} (hx : 0 < x) :
    atan2 y x = Real.arctan (y / x) := by
  unfold atan2
  rw [if_pos hx]

theorem cube_mono {a x : ℝ} (hax : a ≤ x) (ha : a ^ 2 ≤ 1) (hx : x ^ 2 ≤ 1) :
    a - a ^ 3 / 6 ≤ x - x ^ 3 / 6 := by
  nlinarith [sq_nonneg (x - a), sq_nonneg (x + a), mul_nonneg (sub_nonneg.mpr hax) (sub_nonneg.mpr hax)]

theorem sin_enclose (x a b m lo hi : ℝ) (hax : a ≤ x) (hxb : x ≤ b)
    (ham : -m ≤ a) (hbm : b ≤ m) (hm1 : m ≤ 1)
    (hlo : lo ≤ a - a ^ 3 / 6 - m ^ 4 * (5 / 96))
    (hhi : b - b ^ 3 / 6 + m ^ 4 * (5 / 96) ≤ hi) :
    lo ≤ Real.sin x ∧ Real.sin x ≤ hi := by
  have hm0 : 0 ≤ m := by linarith
  have habsm : |x| ≤ m := abs_le.mpr ⟨by linarith, by linarith⟩
  have habs : |x| ≤ 1 := le_trans habsm hm1
  have hb2 := abs_le.mp (Real.sin_bound habs)
  have hx4 : |x| ^ 4 ≤ m ^ 4 := pow_le_pow_left₀ (abs_nonneg x) habsm 4
  have hx2 : x ^ 2 ≤ 1 := by nlinarith [abs_le.mp habs]
  have ha2 : a ^ 2 ≤ 1 := by nlinarith
  have hb2' : b ^ 2 ≤ 1 := by nlinarith
  have hmono1 := cube_mono hax ha2 hx2
  have hmono2 := cube_mono hxb hx2 hb2'
  constructor
  · nlinarith [hb2.1]
  · nlinarith [hb2.2]

theorem cos_enclose (x n m lo hi : ℝ) (hn2 : n ^ 2 ≤ x ^ 2) (hm2 : x ^ 2 ≤ m ^ 2)
    (hm0 : 0 ≤ m) (hm1 : m ≤ 1)
    (hlo : lo ≤ 1 - m ^ 2 / 2 - m ^ 4 * (5 / 96))
    (hhi : 1 - n ^ 2 / 2 + m ^ 4 * (5 / 96) ≤ hi) :
    lo ≤ Real.cos x ∧ Real.cos x ≤ hi := by
  have habsm : |x| ≤ m := by nlinarith [abs_nonneg x, sq_abs x]
  have habs : |x| ≤ 1 := le_trans habsm hm1
  have hb2 := abs_le.mp (Real.cos_bound habs)
  have hx4 : |x| ^ 4 ≤ m ^ 4 := pow_le_pow_left₀ (abs_nonneg x) habsm 4
  have h4 : |x| ^ 4 = (x ^ 2) ^ 2 := by
    rw [show (x : ℝ) ^ 2 = |x| ^ 2 from (sq_abs x).symm]
    ring
  constructor
  · nlinarith [hb2.1]
  · nlinarith [hb2.2]

theorem cos_double_sin_sq (t : ℝ) : Real.cos (2 * t) = 1 - 2 * Real.sin t ^ 2 := by
  rw [Real.cos_two_mul]
  have := Real.sin_sq_add_cos_sq t
  linarith

theorem sq_between_pos {x a b n m : ℝ} (h1 : a ≤ x) (h2 : x ≤ b)
    (hn0 : 0 ≤ n) (hna : n ≤ a) (hbm : b ≤ m) :
    n ^ 2 ≤ x ^ 2 ∧ x ^ 2 ≤ m ^ 2 := by
  constructor <;> nlinarith

theorem sq_between_neg {x a b n m : ℝ} (h1 : a ≤ x) (h2 : x ≤ b)
    (hb0 : b ≤ 0) (hn0 : 0 ≤ n) (hnb : n ≤ -b) (ham : -m ≤ a) :
    n ^ 2 ≤ x ^ 2 ∧ x ^ 2 ≤ m ^ 2 := by
  constructor <;> nlinarith

theorem sq_enclose_neg {s a b lo hi : ℝ} (h1 : a ≤ s) (h2 : s ≤ b) (hb0 : b ≤ 0)
    (hlo : lo ≤ b * b) (hhi : a * a ≤ hi) :
    lo ≤ s * s ∧ s * s ≤ hi := by
  constructor <;> nlinarith

theorem mul2_enclose_pos {s c sl sh cl ch lo hi : ℝ}
    (hs1 : sl ≤ s) (hs2 : s ≤ sh) (hc1 : cl ≤ c) (hc2 : c ≤ ch)
    (hsl0 : 0 ≤ sl) (hcl0 : 0 ≤ cl)
    (hlo : lo ≤ 2 * sl * cl) (hhi : 2 * sh * ch ≤ hi) :
    lo ≤ 2 * s * c ∧ 2 * s * c ≤ hi := by
  constructor <;> nlinarith

theorem mul2_enclose_negpos {s c sl sh cl ch lo hi : ℝ}
    (hs1 : sl ≤ s) (hs2 : s ≤ sh) (hc1 : cl ≤ c) (hc2 : c ≤ ch)
    (hsh0 : sh ≤ 0) (hcl0 : 0 ≤ cl)
    (hlo : lo ≤ 2 * sl * ch) (hhi : 2 * sh * cl ≤ hi) :
    lo ≤ 2 * s * c ∧ 2 * s * c ≤ hi := by
  constructor <;>
    nlinarith [mul_nonneg (sub_nonneg.mpr hs1) (sub_nonneg.mpr hc1),
      mul_nonneg (sub_nonneg.mpr hs1) (sub_nonneg.mpr hc2),
      mul_nonneg (sub_nonneg.mpr hs2) (sub_nonneg.mpr hc1),
      mul_nonneg (sub_nonneg.mpr hs2) (sub_nonneg.mpr hc2)]

theorem one_sub_two_sq_enclose {s sl sh lo hi : ℝ}
    (hs1 : sl ≤ s) (hs2 : s ≤ sh) (hsl0 : 0 ≤ sl)
    (hlo : lo ≤ 1 - 2 * sh * sh) (hhi : 1 - 2 * sl * sl ≤ hi) :
    lo ≤ 1 - 2 * s ^ 2 ∧ 1 - 2 * s ^ 2 ≤ hi := by
  constructor <;> nlinarith

theorem one_sub_two_sq_enclose_neg {s sl sh lo hi : ℝ}
    (hs1 : sl ≤ s) (hs2 : s ≤ sh) (hsh0 : sh ≤ 0)
    (hlo : lo ≤ 1 - 2 * sl * sl) (hhi : 1 - 2 * sh * sh ≤ hi) :
    lo ≤ 1 - 2 * s ^ 2 ∧ 1 - 2 * s ^ 2 ≤ hi := by
  constructor <;> nlinarith

theorem mul_enclose_pos {p q pl ph ql qh lo hi : ℝ}
    (hp1 : pl ≤ p) (hp2 : p ≤ ph) (hq1 : ql ≤ q) (hq2 : q ≤ qh)
    (hpl0 : 0 ≤ pl) (hql0 : 0 ≤ ql)
    (hlo : lo ≤ pl * ql) (hhi : ph * qh ≤ hi) :
    lo ≤ p * q ∧ p * q ≤ hi := by
  constructor <;> nlinarith

theorem add_enclose {x y l1 u1 l2 u2 lo hi : ℝ}
    (h1 : l1 ≤ x) (h2 : x ≤ u1) (h3 : l2 ≤ y) (h4 : y ≤ u2)
    (hlo : lo ≤ l1 + l2) (hhi : u1 + u2 ≤ hi) :
    lo ≤ x + y ∧ x + y ≤ hi := by
  constructor <;> linarith

theorem div_le_of_bounds {s c sh cl k : ℝ} (hs : s ≤ sh) (hc : cl ≤ c)
    (hcl0 : 0 < cl) (hk : sh ≤ k * cl) (hk0 : 0 ≤ k) : s / c ≤ k := by
  have hc0 : 0 < c := lt_of_lt_of_le hcl0 hc
  rw [div_le_iff hc0]
  nlinarith

theorem le_div_of_bounds {s c sl ch k : ℝ} (hs : sl ≤ s) (hc : c ≤ ch)
    (hch0 : 0 < c) (hk : k * ch ≤ sl) (hk0 : 0 ≤ k) : k ≤ s / c := by
  rw [le_div_iff hch0]
  nlinarith

theorem mul_chain_le {t y x k su rl : ℝ} (ht : t ≤ k) (ht0 : 0 ≤ t)
    (hy : y ≤ su) (hy0 : 0 ≤ y) (hx : rl ≤ x) (hk : k * su ≤ rl) : t * y ≤ x := by
  nlinarith

theorem le_mul_chain {t y x k sl ru : ℝ} (ht : k ≤ t) (hk0 : 0 ≤ k)
    (hsl0 : 0 ≤ sl) (hy : sl ≤ y) (hx : x ≤ ru) (hk : ru ≤ k * sl) : x ≤ t * y := by
  nlinarith [mul_nonneg (sub_nonneg.mpr ht) (le_trans hsl0 hy),
    mul_le_mul_of_nonneg_left hy hk0]

theorem in_pi_half {y : ℝ} (hy0 : 0 ≤ y) (hy : y ≤ 1.57) :
    -(Real.pi / 2) < y ∧ y < Real.pi / 2 := by
  have hpi := Real.pi_gt_3141592
  constructor <;> linarith

theorem final_bound {u : ℝ} (h1 : (1220 : ℝ) / 3959 ≤ u) (h2 : u ≤ (1225 : ℝ) / 3959) :
    |3959 * (2 * u) - 2445| ≤ 5 := by
  rw [abs_le]
  constructor <;> linarith

set_option maxHeartbeats 1000000 in
/-- C9 confirmed: the haversine `calculateDistance` with Earth radius 3959
miles, applied to New York (40.7128, -74.0060) and Los Angeles
(34.0522, -118.2437), returns a value within 5 miles of 2445.  The proof
encloses every trigonometric value in rational bounds via the Taylor
estimates `Real.sin_bound`/`Real.cos_bound` (with half-angle reductions for
the larger arguments) and compares the resulting arctangent argument with
`tan` at the endpoints `1220/3959` and `1225/3959`. -/
theorem c9_distance_scenario :
    |calculateDistance 40.7128 (-74.0060) 34.0522 (-118.2437) - 2445| ≤ 5 := by
  have hpiL : (3.141592 : ℝ) < Real.pi := Real.pi_gt_3141592
  have hpiU : Real.pi < 3.141593 := Real.pi_lt_3141593
  simp only [calculateDistance, toRad]
  set x1 : ℝ := (34.0522 - 40.7128) * (Real.pi / 180) / 2 with hx1def
  set v1 : ℝ := 40.7128 * (Real.pi / 180) with hv1def
  set v2 : ℝ := 34.0522 * (Real.pi / 180) with hv2def
  set w : ℝ := (-118.2437 - -74.0060) * (Real.pi / 180) / 2 with hwdef
  set A : ℝ := Real.sin x1 * Real.sin x1 + Real.cos v1 * Real.cos v2 * Real.sin w * Real.sin w
    with hAdef
  have hx1e : (-0.05812470649 : ℝ) ≤ x1 ∧ x1 ≤ -0.05812468798 := by
    rw [hx1def]
    constructor <;> nlinarith [hpiL, hpiU]
  have hs1 := sin_enclose x1 (-0.05812470649) (-0.05812468798) 0.05812471
    (-0.05809257211) (-0.05809136465) hx1e.1 hx1e.2 (by norm_num) (by norm_num)
    (by norm_num) (by norm_num) (by norm_num)
  have hT1 := sq_enclose_neg hs1.1 hs1.2 (by norm_num)
    (show (0.00337460664 : ℝ) ≤ -0.05809136465 * -0.05809136465 by norm_num)
    (show (-0.05809257211 : ℝ) * -0.05809257211 ≤ 0.00337474694 by norm_num)
  have hq1e : (0.17764306496 : ℝ) ≤ v1 / 4 ∧ v1 / 4 ≤ 0.17764312152 := by
    rw [hv1def]
    constructor <;> nlinarith [hpiL, hpiU]
  have hsq1 := sin_enclose (v1 / 4) 0.17764306496 0.17764312152 0.17764313
    0.17665688237 0.17676067236 hq1e.1 hq1e.2 (by norm_num) (by norm_num)
    (by norm_num) (by norm_num) (by norm_num)
  have hq1sq := sq_between_pos hq1e.1 hq1e.2
    (show (0 : ℝ) ≤ 0.17764306 by norm_num) (by norm_num)
    (show (0.17764312152 : ℝ) ≤ 0.17764313 by norm_num)
  have hcq1 := cos_enclose (v1 / 4) 0.17764306 0.17764313 0.98416959202 0.98427333878
    hq1sq.1 hq1sq.2 (by norm_num) (by norm_num) (by norm_num) (by norm_num)
  have hsh1eq : Real.sin (v1 / 2) = 2 * Real.sin (v1 / 4) * Real.cos (v1 / 4) := by
    conv_lhs => rw [show v1 / 2 = 2 * (v1 / 4) by ring]
    rw [Real.sin_two_mul]
  have hsh1 : (0.34772066369 : ℝ) ≤ Real.sin (v1 / 2) ∧
      Real.sin (v1 / 2) ≤ 0.34796163430 := by
    rw [hsh1eq]
    exact mul2_enclose_pos hsq1.1 hsq1.2 hcq1.1 hcq1.2 (by norm_num) (by norm_num)
      (by norm_num) (by norm_num)
  have hcv1eq : Real.cos v1 = 1 - 2 * Real.sin (v1 / 2) ^ 2 := by
    conv_lhs => rw [show v1 = 2 * (v1 / 2) by ring]
    rw [cos_double_sin_sq]
  have hcv1 : (0.75784540211 : ℝ) ≤ Real.cos v1 ∧ Real.cos v1 ≤ 0.75818068009 := by
    rw [hcv1eq]
    exact one_sub_two_sq_enclose hsh1.1 hsh1.2 (by norm_num) (by norm_num) (by norm_num)
  have hq2e : (0.14858072097 : ℝ) ≤ v2 / 4 ∧ v2 / 4 ≤ 0.14858076828 := by
    rw [hv2def]
    constructor <;> nlinarith [hpiL, hpiU]
  have hsq2 := sin_enclose (v2 / 4) 0.14858072097 0.14858076828 0.14858077
    0.14800865389 0.14805946742 hq2e.1 hq2e.2 (by norm_num) (by norm_num)
    (by norm_num) (by norm_num) (by norm_num)
  have hq2sq := sq_between_pos hq2e.1 hq2e.2
    (show (0 : ℝ) ≤ 0.14858072 by norm_num) (by norm_num)
    (show (0.14858076828 : ℝ) ≤ 0.14858077 by norm_num)
  have hcq2 := cos_enclose (v2 / 4) 0.14858072 0.14858077 0.98893649402 0.98898726819
    hq2sq.1 hq2sq.2 (by norm_num) (by norm_num) (by norm_num) (by norm_num)
  have hsh2eq : Real.sin (v2 / 2) = 2 * Real.sin (v2 / 4) * Real.cos (v2 / 4) := by
    conv_lhs => rw [show v2 / 2 = 2 * (v2 / 4) by ring]
    rw [Real.sin_two_mul]
  have hsh2 : (0.29274231852 : ℝ) ≤ Real.sin (v2 / 2) ∧
      Real.sin (v2 / 2) ≤ 0.29285785643 := by
    rw [hsh2eq]
    exact mul2_enclose_pos hsq2.1 hsq2.2 hcq2.1 hcq2.2 (by norm_num) (by norm_num)
      (by norm_num) (by norm_num)
  have hcv2eq : Real.cos v2 = 1 - 2 * Real.sin (v2 / 2) ^ 2 := by
    conv_lhs => rw [show v2 = 2 * (v2 / 2) by ring]
    rw [cos_double_sin_sq]
  have hcv2 : (0.82846855185 : ℝ) ≤ Real.cos v2 ∧ Real.cos v2 ≤ 0.82860386990 := by
    rw [hcv2eq]
    exact one_sub_two_sq_enclose hsh2.1 hsh2.2 (by norm_num) (by norm_num) (by norm_num)
  have hw4e : (-0.09651170046 : ℝ) ≤ w / 4 ∧ w / 4 ≤ -0.09651166973 := by
    rw [hwdef]
    constructor <;> nlinarith [hpiL, hpiU]
  have hsw4 := sin_enclose (w / 4) (-0.09651170046) (-0.09651166973) 0.09651171
    (-0.09636639271) (-0.09635732461) hw4e.1 hw4e.2 (by norm_num) (by norm_num)
    (by norm_num) (by norm_num) (by norm_num)
  have hw4sq := sq_between_neg hw4e.1 hw4e.2 (by norm_num)
    (show (0 : ℝ) ≤ 0.09651166 by norm_num) (by norm_num)
    (show -(0.09651171 : ℝ) ≤ -0.09651170046 by norm_num)
  have hcw4 := cos_enclose (w / 4) 0.09651166 0.09651171 0.99533822616 0.99534726850
    hw4sq.1 hw4sq.2 (by norm_num) (by norm_num) (by norm_num) (by norm_num)
  have hsw2eq : Real.sin (w / 2) = 2 * Real.sin (w / 4) * Real.cos (w / 4) := by
    conv_lhs => rw [show w / 2 = 2 * (w / 4) by ring]
    rw [Real.sin_two_mul]
  have hsw2 : (-0.19183605152 : ℝ) ≤ Real.sin (w / 2) ∧
      Real.sin (w / 2) ≤ -0.19181625710 := by
    rw [hsw2eq]
    exact mul2_enclose_negpos hsw4.1 hsw4.2 hcw4.1 hcw4.2 (by norm_num) (by norm_num)
      (by norm_num) (by norm_num)
  have hcw2eq : Real.cos (w / 2) = 1 - 2 * Real.sin (w / 4) ^ 2 := by
    conv_lhs => rw [show w / 2 = 2 * (w / 4) by ring]
    rw [cos_double_sin_sq]
  have hcw2 : (0.98142703671 : ℝ) ≤ Real.cos (w / 2) ∧
      Real.cos (w / 2) ≤ 0.98143053199 := by
    rw [hcw2eq]
    exact one_sub_two_sq_enclose_neg hsw4.1 hsw4.2 (by norm_num) (by norm_num)
      (by norm_num)
  have hsweq : Real.sin w = 2 * Real.sin (w / 2) * Real.cos (w / 2) := by
    conv_lhs => rw [show w = 2 * (w / 2) by ring]
    rw [Real.sin_two_mul]
  have hsw : (-0.37654751620 : ℝ) ≤ Real.sin w ∧ Real.sin w ≤ -0.37650732159 := by
    rw [hsweq]
    exact mul2_enclose_negpos hsw2.1 hsw2.2 hcw2.1 hcw2.2 (by norm_num) (by norm_num)
      (by norm_num) (by norm_num)
  have hT2 := sq_enclose_neg hsw.1 hsw.2 (by norm_num)
    (show (0.14175776321 : ℝ) ≤ -0.37650732159 * -0.37650732159 by norm_num)
    (show (-0.37654751620 : ℝ) * -0.37654751620 ≤ 0.14178803196 by norm_num)
  have hCC := mul_enclose_pos hcv1.1 hcv1.2 hcv2.1 hcv2.2 (by norm_num) (by norm_num)
    (show (0.62785108281 : ℝ) ≤ 0.75784540211 * 0.82846855185 by norm_num)
    (show (0.75818068009 : ℝ) * 0.82860386990 ≤ 0.62823144561 by norm_num)
  have hCCT := mul_enclose_pos hCC.1 hCC.2 hT2.1 hT2.2 (by norm_num) (by norm_num)
    (show (0.08900276512 : ℝ) ≤ 0.62785108281 * 0.14175776321 by norm_num)
    (show (0.62823144561 : ℝ) * 0.14178803196 ≤ 0.08907570029 by norm_num)
  have hA : (0.09237737176 : ℝ) ≤ A ∧ A ≤ 0.09245044723 := by
    rw [hAdef]
    have hr : Real.sin x1 * Real.sin x1 + Real.cos v1 * Real.cos v2 * Real.sin w * Real.sin w =
        Real.sin x1 * Real.sin x1 +
          (Real.cos v1 * Real.cos v2) * (Real.sin w * Real.sin w) := by ring
    rw [hr]
    exact add_enclose hT1.1 hT1.2 hCCT.1 hCCT.2 (by norm_num) (by norm_num)
  have hA0 : (0 : ℝ) < A := lt_of_lt_of_le (by norm_num) hA.1
  have h1A : (0 : ℝ) < 1 - A := sub_pos.mpr (lt_of_le_of_lt hA.2 (by norm_num))
  have hsqA_lo : (0.30393646007 : ℝ) ≤ Real.sqrt A :=
    (Real.le_sqrt (by norm_num) (le_of_lt hA0)).mpr (le_trans (by norm_num) hA.1)
  have hsqA_hi : Real.sqrt A ≤ 0.30405665135 := by
    have h := Real.sqrt_le_sqrt (le_trans hA.2
      (show (0.09245044723 : ℝ) ≤ (0.30405665135 : ℝ) ^ 2 by norm_num))
    rwa [Real.sqrt_sq (by norm_num)] at h
  have hsq1A_lo : (0.95265395226 : ℝ) ≤ Real.sqrt (1 - A) :=
    (Real.le_sqrt (by norm_num) (le_of_lt h1A)).mpr
      (le_trans (show ((0.95265395226 : ℝ)) ^ 2 ≤ 1 - 0.09245044723 by norm_num)
        (sub_le_sub_left hA.2 1))
  have hsq1A_hi : Real.sqrt (1 - A) ≤ 0.95269230513 := by
    have h := Real.sqrt_le_sqrt (le_trans (sub_le_sub_left hA.1 1)
      (show (1 : ℝ) - 0.09237737176 ≤ (0.95269230513 : ℝ) ^ 2 by norm_num))
    rwa [Real.sqrt_sq (by norm_num)] at h
  have hsq1A_pos : 0 < Real.sqrt (1 - A) := Real.sqrt_pos.mpr h1A
  have hsyh1 := sin_enclose ((610 : ℝ) / 3959) (610 / 3959) (610 / 3959) (610 / 3959)
    0.15344030671 0.15349901591 (le_refl _) (le_refl _) (by norm_num) (le_refl _)
    (by norm_num) (by norm_num) (by norm_num)
  have hcyh1 := cos_enclose ((610 : ℝ) / 3959) (610 / 3959) (610 / 3959)
    0.98810042806 0.98815913726 (le_refl _) (le_refl _) (by norm_num) (by norm_num)
    (by norm_num) (by norm_num)
  have hsy1eq : Real.sin ((1220 : ℝ) / 3959) =
      2 * Real.sin ((610 : ℝ) / 3959) * Real.cos ((610 : ℝ) / 3959) := by
    rw [show ((1220 : ℝ) / 3959) = 2 * ((610 : ℝ) / 3959) by norm_num, Real.sin_two_mul]
  have hcy1eq : Real.cos ((1220 : ℝ) / 3959) = 1 - 2 * Real.sin ((610 : ℝ) / 3959) ^ 2 := by
    rw [show ((1220 : ℝ) / 3959) = 2 * ((610 : ℝ) / 3959) by norm_num, cos_double_sin_sq]
  have hsy1 : (0.30322886548 : ℝ) ≤ Real.sin ((1220 : ℝ) / 3959) ∧
      Real.sin ((1220 : ℝ) / 3959) ≤ 0.30336291027 := by
    rw [hsy1eq]
    exact mul2_enclose_pos hsyh1.1 hsyh1.2 hcyh1.1 hcyh1.2 (by norm_num) (by norm_num)
      (by norm_num) (by norm_num)
  have hcy1 : (0.95287610422 : ℝ) ≤ Real.cos ((1220 : ℝ) / 3959) ∧
      Real.cos ((1220 : ℝ) / 3959) ≤ 0.95291214456 := by
    rw [hcy1eq]
    exact one_sub_two_sq_enclose hsyh1.1 hsyh1.2 (by norm_num) (by norm_num) (by norm_num)
  have htan1 : Real.tan ((1220 : ℝ) / 3959) ≤ 0.31836554 := by
    rw [Real.tan_eq_sin_div_cos]
    exact div_le_of_bounds hsy1.2 hcy1.1 (by norm_num) (by norm_num) (by norm_num)
  have htan1nn : (0 : ℝ) ≤ Real.tan ((1220 : ℝ) / 3959) := by
    rw [Real.tan_eq_sin_div_cos]
    exact div_nonneg (le_trans (by norm_num) hsy1.1) (le_trans (by norm_num) hcy1.1)
  have hsyh2 := sin_enclose ((1225 : ℝ) / 7918) (1225 / 7918) (1225 / 7918) (1225 / 7918)
    0.15406376864 0.15412344622 (le_refl _) (le_refl _) (by norm_num) (le_refl _)
    (by norm_num) (by norm_num) (by norm_num)
  have hcyh2 := cos_enclose ((1225 : ℝ) / 7918) (1225 / 7918) (1225 / 7918)
    0.98800244763 0.98806212521 (le_refl _) (le_refl _) (by norm_num) (by norm_num)
    (by norm_num) (by norm_num)
  have hsy2eq : Real.sin ((1225 : ℝ) / 3959) =
      2 * Real.sin ((1225 : ℝ) / 7918) * Real.cos ((1225 : ℝ) / 7918) := by
    rw [show ((1225 : ℝ) / 3959) = 2 * ((1225 : ℝ) / 7918) by norm_num, Real.sin_two_mul]
  have hcy2eq : Real.cos ((1225 : ℝ) / 3959) = 1 - 2 * Real.sin ((1225 : ℝ) / 7918) ^ 2 := by
    rw [show ((1225 : ℝ) / 3959) = 2 * ((1225 : ℝ) / 7918) by norm_num, cos_double_sin_sq]
  have hsy2 : (0.30443076101 : ℝ) ≤ Real.sin ((1225 : ℝ) / 3959) ∧
      Real.sin ((1225 : ℝ) / 3959) ≤ 0.30456707964 := by
    rw [hsy2eq]
    exact mul2_enclose_pos hsyh2.1 hsyh2.2 hcyh2.1 hcyh2.2 (by norm_num) (by norm_num)
      (by norm_num) (by norm_num)
  have hcy2 : (0.95249192665 : ℝ) ≤ Real.cos ((1225 : ℝ) / 3959) ∧
      Real.cos ((1225 : ℝ) / 3959) ≤ 0.95252871039 := by
    rw [hcy2eq]
    exact one_sub_two_sq_enclose hsyh2.1 hsyh2.2 (by norm_num) (by norm_num) (by norm_num)
  have hcy2pos : (0 : ℝ) < Real.cos ((1225 : ℝ) / 3959) :=
    lt_of_lt_of_le (by norm_num) hcy2.1
  have htan2 : (0.31960271 : ℝ) ≤ Real.tan ((1225 : ℝ) / 3959) := by
    rw [Real.tan_eq_sin_div_cos]
    exact le_div_of_bounds hsy2.1 hcy2.2 hcy2pos (by norm_num) (by norm_num)
  have hmain1 : Real.tan ((1220 : ℝ) / 3959) ≤ Real.sqrt A / Real.sqrt (1 - A) := by
    rw [le_div_iff hsq1A_pos]
    exact mul_chain_le htan1 htan1nn hsq1A_hi (Real.sqrt_nonneg _) hsqA_lo (by norm_num)
  have hmain2 : Real.sqrt A / Real.sqrt (1 - A) ≤ Real.tan ((1225 : ℝ) / 3959) := by
    rw [div_le_iff hsq1A_pos]
    exact le_mul_chain htan2 (by norm_num) (by norm_num) hsq1A_lo hsqA_hi (by norm_num)
  have hy1b : -(Real.pi / 2) < (1220 : ℝ) / 3959 ∧ ((1220 : ℝ) / 3959) < Real.pi / 2 :=
    in_pi_half (by norm_num) (by norm_num)
  have hy2b : -(Real.pi / 2) < (1225 : ℝ) / 3959 ∧ ((1225 : ℝ) / 3959) < Real.pi / 2 :=
    in_pi_half (by norm_num) (by norm_num)
  have harc1 : ((1220 : ℝ) / 3959) ≤ Real.arctan (Real.sqrt A / Real.sqrt (1 - A)) := by
    have h := Real.arctan_strictMono.monotone hmain1
    rwa [Real.arctan_tan hy1b.1 hy1b.2] at h
  have harc2 : Real.arctan (Real.sqrt A / Real.sqrt (1 - A)) ≤ (1225 : ℝ) / 3959 := by
    have h := Real.arctan_strictMono.monotone hmain2
    rwa [Real.arctan_tan hy2b.1 hy2b.2] at h
  rw [atan2_of_pos hsq1A_pos]
  exact final_bound harc1 harc2
